import Mathlib

/-!
Verification development for the clams-kitchen batch runner.

This file gives a shallow embedding of the parts of the repository that the
checked properties talk about:

* `mmif_check` — the artifact validator (src/clams_kitchen/drawer/mmif_adjunct.py,
  `mmif_check`).
* `download_media` / `dl_loop` — the streaming-download section of the media
  resolver (src/drawer/media_availability.py, `make_avail`, lines 180-213).
* `stagger_delay` / `select_batch` — the stagger computation of the per-item
  runner (src/run_job.py, lines 715-718) and the batch-selection logic of
  `main` (src/run_job.py, lines 600-621).
* `run_item` and its helper phases — the per-item pipeline state machine
  (src/run_job.py, `run_item`, lines 712-1189), together with a serial batch
  driver `run_batch` mirroring the serial loop of `main` (lines 641-645).

External effects are made explicit:

* The filesystem is a map `FS` from path strings to file contents; Python's
  `os.path.isfile` becomes an `Option.isSome` test, `os.path.getsize` the
  length of the stored content, and writes are functional updates.
* The MMIF library's parser (`Mmif(mmif_str)` in mmif_adjunct.py) is an
  environment-supplied oracle `parse : String → MmifClass` classifying a
  content string as unparseable or as a parsed document with a list of views,
  each view flagged by whether its metadata carries an "error" key.
* `check_avail`, `make_avail` and `make_blank_mmif` are external calls whose
  results the environment supplies.
* One CLAMS app invocation (HTTP POST or `docker run`) is a black box whose
  observable outcome (response, or new state of the output file) the
  environment supplies per stage; the model records every invocation that is
  actually performed in an instrumentation list.

The Python dictionaries `item` (mutable per-item run state) and `batch_item`
(the immutable input row) are modelled as explicitly threaded records; the
copy `item = batch_item.copy()` at run_job.py:725 becomes the construction of
a fresh `TriedItem` from the `BatchItem`, and the returned `ItemResult` keeps
the threaded `batch_item` so that the absence of mutation is a provable
statement rather than an ambient assumption.

Real time (timestamps, `elapsed_seconds`, the actual `time.sleep`) and console
printing are not modelled; `stagger_delay` models the argument passed to
`time.sleep`. CLI-parameter/query-string construction is not modelled because
no checked property observes it.
-/

/-! ## Filesystem model -/

/-- A filesystem: path → file content (as a string), `none` when absent. -/
abbrev FS := String → Option String

/-- Functional update: the effect of `open(p, "w").write(s)`. -/
def fsWrite (fs : FS) (p s : String) : FS :=
  fun q => if q = p then some s else fs q

/-- The effect of `os.remove(p)` (also a no-op success when `p` is absent,
matching `remove_media` in media_availability.py, which swallows errors). -/
def fsRemove (fs : FS) (p : String) : FS :=
  fun q => if q = p then none else fs q

/-! ## Artifact validator (mmif_adjunct.py, `mmif_check`) -/

/-- Result of the external MMIF-library parse `Mmif(mmif_str)`:
either the constructor raises (unparseable), or it yields a document whose
views are listed here by whether `"error" in v.metadata`. -/
inductive MmifClass where
  | unparseable : MmifClass
  | parsed (view_errors : List Bool) : MmifClass
deriving DecidableEq, Repr

/-- Shallow embedding of `mmif_check(mmif_path)` (mmif_adjunct.py lines 13-60).
The source appends flags to a list; the four reachable append sequences are
written out literally here.  The `complain` flag only prints and is dropped. -/
def mmif_check (parse : String → MmifClass) (fs : FS) (mmif_path : String) :
    List String :=
  match fs mmif_path with
  | none => ["absent"]
  | some mmif_str =>
    match parse mmif_str with
    | .unparseable => ["exists", "invalid"]
    | .parsed view_errors =>
      if view_errors.length = 0 then
        ["exists", "valid", "blank"]
      else
        if (view_errors.filter (fun b => b)).length > 0 then
          ["exists", "valid", "laden", "error-views"]
        else
          ["exists", "valid", "laden"]

/-! ## Media resolver download section (media_availability.py, `make_avail`) -/

/-- `BYTES_LIMIT` from media_availability.py line 16. -/
def BYTES_LIMIT : Nat := 1500000000

/-- Environment for one download attempt (the `requests.get(..., stream=True)`
block, media_availability.py lines 180-213): the HTTP status, the chunk sizes
the response iterator yields (`0` models a keep-alive chunk, filtered by
`if chunk:`), whether the iterator raises after yielding all listed chunks,
and whether a file already exists at the final path. -/
structure DlEnv where
  status : Nat
  chunks : List Nat
  stream_raises : Bool
  final_exists : Bool
deriving DecidableEq, Repr

/-- Observable outcome of the download section: bytes written to the
`.PARTIAL` file, number of chunks consumed from the stream, the `success`
flag, whether `os.rename(tempfilepath, filepath)` was performed, and the
value `make_avail` returns from this section. -/
structure DlResult where
  bytes_saved : Nat
  chunks_consumed : Nat
  success : Bool
  promoted : Bool
  returned : Option String
deriving DecidableEq, Repr

/-- The `for chunk in response.iter_content(...)` loop (lines 189-196):
returns (bytes_saved, chunks consumed, whether the byte-ceiling `break` was
taken).  The ceiling test sits outside `if chunk:`, as in the source. -/
def dl_loop (limit : Nat) : List Nat → Nat → Nat × Nat × Bool
  | [], bytes_saved => (bytes_saved, 0, false)
  | chunk :: rest, bytes_saved =>
    let b2 := if chunk ≠ 0 then bytes_saved + chunk else bytes_saved
    if limit ≤ b2 then (b2, 1, true)
    else
      let r := dl_loop limit rest b2
      (r.1, r.2.1 + 1, r.2.2)

/-- The download-and-promote section of `make_avail` (lines 180-213).
After the loop — whether it ended normally or via the byte-ceiling `break` —
control reaches `success = True`; only an exception from the stream leaves
`success` false.  On success the partial file is renamed to `filepath` unless
a file already exists there, and the filename is returned either way. -/
def download_media (limit : Nat) (filename : String) (e : DlEnv) : DlResult :=
  if e.status = 200 then
    let r := dl_loop limit e.chunks 0
    let hit := r.2.2
    let success := hit || !e.stream_raises
    { bytes_saved := r.1
      chunks_consumed := r.2.1
      success := success
      promoted := success && !e.final_exists
      returned := if success then some filename else none }
  else
    { bytes_saved := 0, chunks_consumed := 0, success := false,
      promoted := false, returned := none }

/-! ## Job configuration (run_job.py, `cf` dictionary) -/

/-- The fields of the `cf` configuration dictionary that the modelled code
reads, with the normalizations `main` performs already applied. -/
structure Config where
  job_id : String
  media_required : Bool
  just_get_media : Bool
  overwrite_mmif : Bool
  cleanup_media_per_item : Bool
  cleanup_beyond_item : Nat
  start_after_item : Nat
  end_after_item : Nat
  include_only_items : Option (List Nat)
  parallel : Nat
  stagger : Nat
  media_dir : String
  mmif_dir : String

/-! ## Batch selection and stagger (run_job.py `main` lines 600-621, 715-718) -/

/-- The item numbers selected for a run of a batch with `total` rows:
`item_num = index + 1` is assigned at load time (line 605), the list is
sliced to `[start_after_item:end_after_item]` (line 617) and, when
`include_only_items` is set, filtered to those numbers (line 621). -/
def select_batch (cf : Config) (total : Nat) : List Nat :=
  let with_nums := (List.range total).map (fun idx => idx + 1)
  let ranged := (with_nums.drop cf.start_after_item).take
    (cf.end_after_item - cf.start_after_item)
  match cf.include_only_items with
  | none => ranged
  | some incl => ranged.filter (fun n => n ∈ incl)

/-- The seconds slept before an item starts (run_job.py lines 715-718): items
with `item_num - start_after_item ≤ parallel` sleep
`stagger * (item_num - start_after_item - 1)`; all others do not sleep.
Selected items always have `item_num > start_after_item`, so the natural
subtraction agrees with Python's arithmetic on every reachable input. -/
def stagger_delay (cf : Config) (item_num : Nat) : Nat :=
  if item_num - cf.start_after_item ≤ cf.parallel then
    cf.stagger * (item_num - cf.start_after_item - 1)
  else 0

/-! ## Batch and tried items (run_job.py `batch_l` / `tried_l` records) -/

/-- One row of the batch definition CSV plus the `item_num` added at load
time (run_job.py lines 600-606).  `media_type` is `none` when the CSV has no
such column (the source then defaults it, lines 750-752). -/
structure BatchItem where
  item_num : Nat
  asset_id : String
  sonyci_id : String
  media_type : Option String
deriving DecidableEq, Repr

/-- The per-item run-state dictionary `item` as recorded in `tried_l`:
the batch fields plus the keys initialized at run_job.py lines 737-752.
Timestamps and `elapsed_seconds` are real-time values and are not modelled. -/
structure TriedItem where
  item_num : Nat
  asset_id : String
  sonyci_id : String
  media_type : String
  skip_reason : String
  errors : List String
  problems : List String
  infos : List String
  media_filename : String
  media_path : String
  mmif_files : List String
  mmif_paths : List String
deriving DecidableEq, Repr

/-- `item = batch_item.copy()` plus the field initialization and the
`media_type` default (run_job.py lines 725, 737-752). -/
def init_item (batch_item : BatchItem) : TriedItem :=
  { item_num := batch_item.item_num
    asset_id := batch_item.asset_id
    sonyci_id := batch_item.sonyci_id
    media_type :=
      match batch_item.media_type with
      | some mt => mt
      | none => "Moving Image"
    skip_reason := ""
    errors := []
    problems := []
    infos := []
    media_filename := ""
    media_path := ""
    mmif_files := []
    mmif_paths := [] }

/-! ## App invocation environment (run_job.py lines 884-1092) -/

/-- Outcome of `requests.post(uri, ...)` for one HTTP-mode stage: either the
call raises (connection failure), or a response with a status code and body
text arrives. -/
inductive HttpOutcome where
  | exn : HttpOutcome
  | resp (status : Nat) (body : String) : HttpOutcome
deriving DecidableEq, Repr

/-- Outcome of one `docker run` invocation: whether the CLI wrote to stderr,
and the state of the output MMIF path after the container exits (the app is a
black box and may write the file, leave it untouched-and-absent, or anything
else; `out` is the resulting content at that path). -/
structure DockerOutcome where
  stderr_nonempty : Bool
  out : Option String
deriving DecidableEq, Repr

/-- One configured CLAMS app stage: its kind (which of `"endpoint"` /
`"image"` is present in the app dict, run_job.py lines 938/989) bundled with
the environment-supplied outcome its invocation would produce this run. -/
inductive StageBehavior where
  | http (o : HttpOutcome) : StageBehavior
  | docker (o : DockerOutcome) : StageBehavior
deriving DecidableEq, Repr

/-- Result of `platform.system()` (run_job.py lines 1000-1008): the two
supported platforms, or anything else (which raises `OSError`). -/
inductive OSKind where
  | windows : OSKind
  | linux : OSKind
  | other : OSKind
deriving DecidableEq, Repr

/-- Dispatch of one configured post-process by its `"name"` (run_job.py
lines 1123-1170): recognized as the visaid builder, recognized as the
transcript converter, unnamed (no `"name"` key), or an unrecognized name. -/
inductive PPDispatch where
  | visaid : PPDispatch
  | transcript : PPDispatch
  | unnamed : PPDispatch
  | invalid : PPDispatch
deriving DecidableEq, Repr

/-- One configured post-process together with the three lists its `run_post`
call would return this run (the plugins are external modules). -/
structure PostProc where
  dispatch : PPDispatch
  pp_name : String
  pp_errors : List String
  pp_problems : List String
  pp_infos : List String
deriving DecidableEq, Repr

/-- The external world for one `run_item` call: initial filesystem, the MMIF
parser, the blank-MMIF generator, the results `check_avail` / `make_avail`
would return (with the content a successful download writes), the host OS,
and the configured app stages and post-processes with their behaviors. -/
structure Env where
  fs : FS
  parse : String → MmifClass
  blank_of : String → String → String
  check_avail : Option String
  make_avail : Option String
  media_content : String
  current_os : OSKind
  apps : List StageBehavior
  post_procs : List PostProc

/-- Instrumentation: one actually-performed app invocation, tagged with the
`mmifi` stage index (1-based; stage 0 is the blank MMIF). -/
inductive Invocation where
  | docker_run (mmifi : Nat) : Invocation
  | http_post (mmifi : Nat) : Invocation
deriving DecidableEq, Repr

/-- The stage index of an invocation. -/
def Invocation.stage : Invocation → Nat
  | .docker_run i => i
  | .http_post i => i

/-- A run-wide fatal abort: the `raise SystemExit` after a failed POST
(run_job.py line 971) or the `raise OSError` on an unsupported platform
(line 1008). -/
inductive Fatal where
  | http_down : Fatal
  | bad_os : Fatal
deriving DecidableEq, Repr

/-! ## Per-item pipeline state machine (run_job.py `run_item`) -/

/-- State carried through the CLAMS stage loop (run_job.py lines 884-1082):
the item dictionary, the filesystem, the `mmifi` counter, the `clams_failed`
latch, and instrumentation (invocations performed; the `mmifi` value recorded
at each `mmif_paths.append`). -/
structure LoopState where
  item : TriedItem
  fs : FS
  mmifi : Nat
  clams_failed : Bool
  invocations : List Invocation
  stages_completed : List Nat

/-- The MMIF filename for app stage `mmifi ≥ 1` (run_job.py line 898). -/
def stage_mmif_filename (cf : Config) (asset_id : String) (mmifi : Nat) :
    String :=
  asset_id ++ "_" ++ cf.job_id ++ "_" ++ toString mmifi ++ ".mmif"

/-- The canonical path of the app-stage-`mmifi` artifact (line 899). -/
def stage_path (cf : Config) (asset_id : String) (mmifi : Nat) : String :=
  cf.mmif_dir ++ "/" ++ stage_mmif_filename cf asset_id mmifi

/-- The canonical path of the stage-0 (blank) artifact (lines 821-822;
note: no job id in the stage-0 filename). -/
def stage0_path (cf : Config) (asset_id : String) : String :=
  cf.mmif_dir ++ "/" ++ (asset_id ++ "_0.mmif")

/-- The full canonical artifact-path chain for a pipeline of `n` app stages:
stage 0 (blank) followed by stages 1..n. -/
def mmif_chain (cf : Config) (asset_id : String) (n : Nat) : List String :=
  stage0_path cf asset_id ::
    (List.range n).map (fun k => stage_path cf asset_id (k + 1))

/-- The reuse-or-regenerate decision for an app-stage artifact (run_job.py
lines 902-916): an existing file is reused only when overwriting is off, it
is larger than 100 bytes, and it validates as syntactically valid. -/
def make_new_mmif_decision (cf : Config) (parse : String → MmifClass)
    (fs : FS) (mmif_path : String) : Bool :=
  if (fs mmif_path).isSome && !cf.overwrite_mmif then
    if ((fs mmif_path).getD "").length > 100 then
      if "valid" ∈ mmif_check parse fs mmif_path then false else true
    else true
  else true

/-- The output gate shared by reuse and regeneration (run_job.py lines
1073-1082): "laden and no error-views" appends the stage's filename and path
(and the stage index, as instrumentation); anything else latches
`clams_failed`.  `mmif_path` is the path actually checked and appended —
for a 500-status HTTP response it carries the `"500"` suffix. -/
def stage_gate (parse : String → MmifClass) (mmifi : Nat)
    (mmif_filename mmif_path : String) (st : LoopState) : LoopState :=
  let mmif_status := mmif_check parse st.fs mmif_path
  if "laden" ∈ mmif_status ∧ "error-views" ∉ mmif_status then
    { st with
        mmifi := mmifi
        item := { st.item with
                    mmif_files := st.item.mmif_files ++ [mmif_filename]
                    mmif_paths := st.item.mmif_paths ++ [mmif_path] }
        stages_completed := st.stages_completed ++ [mmifi] }
  else
    { st with mmifi := mmifi, clams_failed := true }

/-- One iteration of the CLAMS stage loop (run_job.py lines 884-1082) for the
app behavior `beh`.  A latched failure skips the body (`continue`, line 890).
A fatal abort (`SystemExit` from a failed POST, `OSError` on an unsupported
platform) is returned as an error carrying the invocations performed so far. -/
def run_stage (cf : Config) (env : Env) (beh : StageBehavior)
    (st : LoopState) : Except (Fatal × List Invocation) LoopState :=
  if st.clams_failed then
    .ok st
  else
    let mmifi := st.mmifi + 1
    let mmif_filename := stage_mmif_filename cf st.item.asset_id mmifi
    let mmif_path := cf.mmif_dir ++ "/" ++ mmif_filename
    if !(make_new_mmif_decision cf env.parse st.fs mmif_path) then
      -- reuse the existing artifact; fall through to the gate
      .ok (stage_gate env.parse mmifi mmif_filename mmif_path st)
    else
      -- prerequisite: the previous stage's artifact must be valid (lines 922-935)
      let input_path := st.item.mmif_paths.getD (mmifi - 1) ""
      if "valid" ∉ mmif_check env.parse st.fs input_path then
        .ok { st with
                mmifi := mmifi
                item := { st.item with
                            skip_reason := "mmif-" ++ toString mmifi ++ "-prereq" }
                clams_failed := true }
      else
        match beh with
        | .http o =>
          -- lines 938-987
          let invs := st.invocations ++ [Invocation.http_post mmifi]
          match o with
          | .exn => .error (Fatal.http_down, invs)
          | .resp status body =>
            let input_str := (st.fs input_path).getD ""
            let sp :=
              if status ≠ 0 then
                (body, if status = 500 then mmif_path ++ "500" else mmif_path)
              else (input_str, mmif_path)
            let fs2 := if sp.1 ≠ "" then fsWrite st.fs sp.2 sp.1 else st.fs
            .ok (stage_gate env.parse mmifi mmif_filename sp.2
                  { st with fs := fs2, invocations := invs })
        | .docker o =>
          -- lines 989-1070
          match env.current_os with
          | .other => .error (Fatal.bad_os, st.invocations)
          | _ =>
            let invs := st.invocations ++ [Invocation.docker_run mmifi]
            let fs2 : FS := fun q => if q = mmif_path then o.out else st.fs q
            let item2 :=
              if o.stderr_nonempty then
                { st.item with
                    problems := st.item.problems ++
                      ["clams-" ++ toString (mmifi - 1) ++ ":stderr"] }
              else st.item
            .ok (stage_gate env.parse mmifi mmif_filename mmif_path
                  { st with fs := fs2, invocations := invs, item := item2 })

/-- The `for i in range(clams["num_stages"])` loop (run_job.py line 884). -/
def run_stages (cf : Config) (env : Env) :
    List StageBehavior → LoopState → Except (Fatal × List Invocation) LoopState
  | [], st => .ok st
  | beh :: rest, st =>
    match run_stage cf env beh st with
    | .error e => .error e
    | .ok st2 => run_stages cf env rest st2

/-- The filesystem effect of `cleanup_media(cf, item)` (run_job.py lines
186-205): the media file is removed only when media was required, per-item
cleanup is on, and the item number is beyond `cleanup_beyond_item`. -/
def cleanup_media_fs (cf : Config) (item : TriedItem) (fs : FS) : FS :=
  if !cf.media_required then fs
  else if cf.cleanup_media_per_item ∧ item.item_num > cf.cleanup_beyond_item
  then fsRemove fs item.media_path
  else fs

/-- Outcome of the media-availability phase (run_job.py lines 761-800):
either the function returned early (item recorded with the given state), or
processing proceeds with the updated item and filesystem. -/
inductive MediaPhase where
  | early (r : TriedItem) (fs : FS) : MediaPhase
  | proceed (item : TriedItem) (fs : FS) : MediaPhase

/-- Lines 783-800: after `media_filename` is determined, check
`os.path.isfile(media_path)`, record the media fields, and return early with
skip_reason "media" on failure or immediately (successfully) when the job is
media-only. -/
def media_check (cf : Config) (item0 : TriedItem) (mfn : Option String)
    (media_path : String) (fs : FS) : MediaPhase :=
  match mfn with
  | some fn =>
    if (fs media_path).isSome then
      let item1 := { item0 with media_filename := fn, media_path := media_path }
      if cf.just_get_media then .early item1 fs else .proceed item1 fs
    else .early { item0 with skip_reason := "media" } fs
  | none => .early { item0 with skip_reason := "media" } fs

/-- The media-availability phase (run_job.py lines 761-800): `check_avail`
first; if it finds nothing and the item has a SonyCi id, `make_avail`
downloads the file (modelled as writing `media_content` at the final path). -/
def media_phase (cf : Config) (env : Env) (item0 : TriedItem) : MediaPhase :=
  if !cf.media_required then .proceed item0 env.fs
  else
    match env.check_avail with
    | some fn => media_check cf item0 (some fn) (cf.media_dir ++ "/" ++ fn) env.fs
    | none =>
      if item0.sonyci_id ≠ "" then
        match env.make_avail with
        | some fn =>
          media_check cf item0 (some fn) (cf.media_dir ++ "/" ++ fn)
            (fsWrite env.fs (cf.media_dir ++ "/" ++ fn) env.media_content)
        | none => media_check cf item0 none "" env.fs
      else media_check cf item0 none "" env.fs

/-- Outcome of the blank-MMIF phase (run_job.py lines 807-871): an early
return (with the final item, the filesystem after any cleanup, and whether
`cleanup_media` ran), or the initial stage-loop state. -/
inductive BlankPhase where
  | skipped (r : TriedItem) (fs : FS) (cleanup : Bool) : BlankPhase
  | proceed (st : LoopState) : BlankPhase

/-- Lines 858-871: validate the stage-0 MMIF; "blank" appends it, anything
else records skip_reason "mmif-0" and cleans up media. -/
def blank_validate (cf : Config) (env : Env) (item : TriedItem) (fs : FS)
    (mmif_filename mmif_path : String) : BlankPhase :=
  if "blank" ∈ mmif_check env.parse fs mmif_path then
    .proceed
      { item := { item with
                    mmif_files := item.mmif_files ++ [mmif_filename]
                    mmif_paths := item.mmif_paths ++ [mmif_path] }
        fs := fs
        mmifi := 0
        clams_failed := false
        invocations := []
        stages_completed := [0] }
  else
    let item2 := { item with skip_reason := "mmif-" ++ toString 0 }
    .skipped item2 (cleanup_media_fs cf item2 fs) true

/-- The blank-MMIF phase (run_job.py lines 807-871).  When media is not
required, empty placeholders are appended (lines 811-817); otherwise an
existing file at the canonical stage-0 path is reused unless overwriting is
on, and a fresh blank MMIF is synthesized from the media type otherwise. -/
def blank_phase (cf : Config) (env : Env) (item : TriedItem) (fs : FS) :
    BlankPhase :=
  if !cf.media_required then
    .proceed
      { item := { item with
                    mmif_files := item.mmif_files ++ [""]
                    mmif_paths := item.mmif_paths ++ [""] }
        fs := fs
        mmifi := 0
        clams_failed := false
        invocations := []
        stages_completed := [0] }
  else
    let mmif_filename := item.asset_id ++ "_0.mmif"
    let mmif_path := cf.mmif_dir ++ "/" ++ mmif_filename
    if (fs mmif_path).isSome && !cf.overwrite_mmif then
      blank_validate cf env item fs mmif_filename mmif_path
    else
      if cf.media_required && item.media_filename == "" then
        .skipped { item with skip_reason := "mmif-" ++ toString 0 ++ "-prereq" }
          fs false
      else
        let mime :=
          if item.media_type = "Moving Image" then "video"
          else if item.media_type = "Sound" then "audio"
          else "video"
        let mmif_str := env.blank_of item.media_filename mime
        blank_validate cf env item (fsWrite fs mmif_path mmif_str)
          mmif_filename mmif_path

/-- One post-process run (run_job.py lines 1121-1170): a recognized name
appends its tagged errors/problems/infos to the item; an unnamed or
unrecognized post-process changes nothing. -/
def run_post_proc (pp : PostProc) (item : TriedItem) : TriedItem :=
  match pp.dispatch with
  | .unnamed => item
  | .invalid => item
  | .visaid | .transcript =>
    let item1 :=
      if pp.pp_errors ≠ [] then
        { item with errors := item.errors ++
            pp.pp_errors.map (fun e => pp.pp_name ++ ":" ++ e) }
      else item
    let item2 :=
      if pp.pp_problems ≠ [] then
        { item1 with problems := item1.problems ++
            pp.pp_problems.map (fun p => pp.pp_name ++ ":" ++ p) }
      else item1
    if pp.pp_infos ≠ [] then
      { item2 with infos := item2.infos ++
          pp.pp_infos.map (fun m => pp.pp_name ++ ":" ++ m) }
    else item2

/-- The post-processing loop over all configured post-processes. -/
def run_post_procs (pps : List PostProc) (item : TriedItem) : TriedItem :=
  pps.foldl (fun it pp => run_post_proc pp it) item

/-- Outcome of the post-processing phase (run_job.py lines 1099-1170). -/
inductive PostPhase where
  | pp_skipped (r : TriedItem) : PostPhase
  | done (r : TriedItem) : PostPhase

/-- The post-processing phase: with no post-processes configured it is a
no-op; otherwise the final artifact must re-validate "laden and no
error-views" (lines 1106-1118) or the item is skipped "usemmif-prereq". -/
def post_phase (env : Env) (st : LoopState) : PostPhase :=
  if env.post_procs = [] then .done st.item
  else
    let mmif_status :=
      mmif_check env.parse st.fs (st.item.mmif_paths.getD st.mmifi "")
    if "laden" ∉ mmif_status ∨ "error-views" ∈ mmif_status then
      .pp_skipped { st.item with skip_reason := "usemmif-prereq" }
    else
      .done (run_post_procs env.post_procs st.item)

/-- Everything observable about one `run_item` call: the threaded (and never
mutated) input record, the recorded tried item (`none` exactly when a fatal
abort interrupted the item before `update_tried`), the fatal outcome if any,
the app invocations performed, whether `cleanup_media` ran, the
stage-completion instrumentation, the final `clams_failed` flag and `mmifi`
counter, and the final filesystem. -/
structure ItemResult where
  batch_item : BatchItem
  tried : Option TriedItem
  fatal : Option Fatal
  invocations : List Invocation
  cleanup_called : Bool
  stages_completed : List Nat
  clams_failed : Bool
  mmifi : Nat
  fs : FS

/-- The per-item pipeline `run_item` (run_job.py lines 712-1189), composed
from the phases above.  On a fatal abort the instrumentation other than
`invocations` is not meaningful and `tried` is `none` (the item is never
recorded).  On every other path the item is recorded via `update_tried`. -/
def run_item (cf : Config) (env : Env) (batch_item : BatchItem) : ItemResult :=
  match media_phase cf env (init_item batch_item) with
  | .early r fs =>
    { batch_item := batch_item, tried := some r, fatal := none,
      invocations := [], cleanup_called := false, stages_completed := [],
      clams_failed := false, mmifi := 0, fs := fs }
  | .proceed item1 fs1 =>
    match blank_phase cf env item1 fs1 with
    | .skipped r fs2 cl =>
      { batch_item := batch_item, tried := some r, fatal := none,
        invocations := [], cleanup_called := cl, stages_completed := [],
        clams_failed := false, mmifi := 0, fs := fs2 }
    | .proceed st0 =>
      match run_stages cf env env.apps st0 with
      | .error e =>
        { batch_item := batch_item, tried := none, fatal := some e.1,
          invocations := e.2, cleanup_called := false, stages_completed := [],
          clams_failed := false, mmifi := 0, fs := env.fs }
      | .ok st1 =>
        if st1.clams_failed then
          let r := { st1.item with skip_reason := "mmif-" ++ toString st1.mmifi }
          { batch_item := batch_item, tried := some r, fatal := none,
            invocations := st1.invocations, cleanup_called := true,
            stages_completed := st1.stages_completed, clams_failed := true,
            mmifi := st1.mmifi, fs := cleanup_media_fs cf r st1.fs }
        else
          match post_phase env st1 with
          | .pp_skipped r =>
            { batch_item := batch_item, tried := some r, fatal := none,
              invocations := st1.invocations, cleanup_called := false,
              stages_completed := st1.stages_completed, clams_failed := false,
              mmifi := st1.mmifi, fs := st1.fs }
          | .done r =>
            { batch_item := batch_item, tried := some r, fatal := none,
              invocations := st1.invocations, cleanup_called := true,
              stages_completed := st1.stages_completed, clams_failed := false,
              mmifi := st1.mmifi, fs := cleanup_media_fs cf r st1.fs }

/-- The serial batch driver (run_job.py lines 641-645 + `update_tried`):
items run in order, every completed item is appended to the run log, and a
fatal abort stops the whole run — later items are never attempted. -/
def run_batch (cf : Config) :
    List (BatchItem × Env) → List TriedItem × Option Fatal
  | [] => ([], none)
  | (b, e) :: rest =>
    let r := run_item cf e b
    match r.fatal with
    | some f => (r.tried.toList, some f)
    | none =>
      let rr := run_batch cf rest
      (r.tried.toList ++ rr.1, rr.2)

/-! ## Concrete fixtures used by witnesses and counterexamples -/

/-- A shared concrete job configuration. -/
def cfA : Config :=
  { job_id := "j", media_required := true, just_get_media := false,
    overwrite_mmif := false, cleanup_media_per_item := false,
    cleanup_beyond_item := 0, start_after_item := 0, end_after_item := 1,
    include_only_items := none, parallel := 0, stagger := 20,
    media_dir := "m", mmif_dir := "d" }

/-- A shared concrete batch row. -/
def bA : BatchItem :=
  { item_num := 1, asset_id := "a", sonyci_id := "s", media_type := none }

/-- A 101-character MMIF content string (passes the >100-byte corruption
guard of run_job.py line 906). -/
def big_mmif : String := String.mk (List.replicate 101 'L')

/-- A concrete parse oracle: "B" is a blank document, `big_mmif` and
"NEWDOC" are laden documents without error views, everything else fails to
parse. -/
def parseA : String → MmifClass := fun s =>
  if s = "B" then .parsed []
  else if s = big_mmif then .parsed [false]
  else if s = "NEWDOC" then .parsed [false]
  else .unparseable

/-- Filesystem for the idempotent-resume fixture: media present, the blank
stage-0 artifact present, and a valid laden stage-1 artifact present at its
canonical path. -/
def fsA : FS := fun p =>
  if p = "m/f.mp4" then some "X"
  else if p = "d/a_0.mmif" then some "B"
  else if p = "d/a_j_1.mmif" then some big_mmif
  else none

/-- Filesystem with only media and the blank artifact (stage 1 must run). -/
def fsB : FS := fun p =>
  if p = "m/f.mp4" then some "X"
  else if p = "d/a_0.mmif" then some "B"
  else none

/-- Idempotent-resume environment: every canonical artifact already present
and valid; the single configured stage would fail fatally if it were ever
invoked. -/
def envA : Env :=
  { fs := fsA, parse := parseA, blank_of := fun _ _ => "B",
    check_avail := some "f.mp4", make_avail := none, media_content := "X",
    current_os := .linux, apps := [.http .exn], post_procs := [] }

/-- Environment whose single HTTP stage must actually POST and hits a
connection failure. -/
def envB : Env :=
  { fs := fsB, parse := parseA, blank_of := fun _ _ => "B",
    check_avail := some "f.mp4", make_avail := none, media_content := "X",
    current_os := .linux, apps := [.http .exn], post_procs := [] }

/-- Environment whose single container stage produces an unparseable output
file, so the output gate fails and the failure latches. -/
def envC : Env :=
  { fs := fsB, parse := parseA, blank_of := fun _ _ => "B",
    check_avail := some "f.mp4", make_avail := none, media_content := "X",
    current_os := .linux,
    apps := [.docker { stderr_nonempty := false, out := some "BAD" }],
    post_procs := [] }

/-- Filesystem for the HTTP-response counterexample: a stale 3-byte artifact
sits at the canonical stage-1 path (regenerated by the corruption guard). -/
def fs7 : FS := fun p =>
  if p = "m/f.mp4" then some "X"
  else if p = "d/a_0.mmif" then some "B"
  else if p = "d/a_j_1.mmif" then some "OLD"
  else none

/-- Environment whose single HTTP stage answers with a 503 server error and
a non-empty body. -/
def env7 : Env :=
  { fs := fs7, parse := parseA, blank_of := fun _ _ => "B",
    check_avail := some "f.mp4", make_avail := none, media_content := "X",
    current_os := .linux, apps := [.http (.resp 503 "NEWDOC")],
    post_procs := [] }

/-- Loop state at the entry of stage 1 for the HTTP-response witness: blank
artifact appended, stale 3-byte artifact at the canonical stage-1 path. -/
def st7 : LoopState :=
  { item := { item_num := 1, asset_id := "a", sonyci_id := "s",
              media_type := "Moving Image", skip_reason := "", errors := [],
              problems := [], infos := [], media_filename := "f.mp4",
              media_path := "m/f.mp4", mmif_files := ["a_0.mmif"],
              mmif_paths := ["d/a_0.mmif"] },
    fs := fs7, mmifi := 0, clams_failed := false, invocations := [],
    stages_completed := [0] }

/-- The tried item recorded by `run_item cfA envC bA` (the latched-failure
fixture). -/
def triedC : TriedItem :=
  { item_num := 1, asset_id := "a", sonyci_id := "s",
    media_type := "Moving Image", skip_reason := "mmif-1", errors := [],
    problems := [], infos := [], media_filename := "f.mp4",
    media_path := "m/f.mp4", mmif_files := ["a_0.mmif"],
    mmif_paths := ["d/a_0.mmif"] }

/-- Configuration for the stagger counterexample: degree 2, stagger 10s,
with an `include_only_items` filter `[1, 3]`. -/
def cf8 : Config :=
  { job_id := "j", media_required := true, just_get_media := false,
    overwrite_mmif := false, cleanup_media_per_item := false,
    cleanup_beyond_item := 0, start_after_item := 0, end_after_item := 3,
    include_only_items := some [1, 3], parallel := 2, stagger := 10,
    media_dir := "m", mmif_dir := "d" }

/-- Configuration for the stagger witness: same run without the filter. -/
def cf8b : Config :=
  { job_id := "j", media_required := true, just_get_media := false,
    overwrite_mmif := false, cleanup_media_per_item := false,
    cleanup_beyond_item := 0, start_after_item := 0, end_after_item := 3,
    include_only_items := none, parallel := 2, stagger := 10,
    media_dir := "m", mmif_dir := "d" }

/-- Download environment for the byte-ceiling counterexample: the first
chunk alone reaches the ceiling and a further chunk is pending. -/
def dl_env_cex : DlEnv :=
  { status := 200, chunks := [BYTES_LIMIT, 8388608],
    stream_raises := false, final_exists := false }

/-- Download environment for the byte-ceiling witness: a tiny limit, a
stream that would raise past its second chunk, and an occupied final path. -/
def dl_env_wit : DlEnv :=
  { status := 200, chunks := [4, 7], stream_raises := true,
    final_exists := true }

/-- Filesystem carrying an error-views artifact, for validator witnesses. -/
def fs_ev : FS := fun p => if p = "e.mmif" then some "E" else none

/-- Parse oracle for `fs_ev`: "E" is a laden document with one error view. -/
def parse_ev : String → MmifClass := fun s =>
  if s = "E" then .parsed [true] else .unparseable

/-- The item record carried by either outcome of the media phase. -/
def MediaPhase.item : MediaPhase → TriedItem
  | .early r _ => r
  | .proceed r _ => r

/-- Invariant of the CLAMS stage loop relating the instrumentation to the
item record: the completed stages are exactly `0, 1, …, |mmif_paths| − 1`
(so `|mmif_paths| = 1 +` the index of the last completed stage whenever any
stage completed); while the failure is not latched `|mmif_paths| = mmifi + 1`,
and once latched `|mmif_paths| = mmifi`; and every invocation performed so
far targets a stage index at most `mmifi`. -/
def stage_loop_inv (st : LoopState) : Prop :=
  st.stages_completed = List.range st.item.mmif_paths.length ∧
  (st.clams_failed = false → st.item.mmif_paths.length = st.mmifi + 1) ∧
  (st.clams_failed = true → st.item.mmif_paths.length = st.mmifi) ∧
  (∀ inv ∈ st.invocations, Invocation.stage inv ≤ st.mmifi)

/-!
# Theorems

Helper lemmas come first, then one theorem per claim (with its witness or
counterexample as required).
-/

/-! ## Validator lemmas -/

/-- The validator returns exactly one of five flag lists. -/
lemma mmif_check_cases (parse : String → MmifClass) (fs : FS) (p : String) :
    mmif_check parse fs p = ["absent"] ∨
    mmif_check parse fs p = ["exists", "invalid"] ∨
    mmif_check parse fs p = ["exists", "valid", "blank"] ∨
    mmif_check parse fs p = ["exists", "valid", "laden"] ∨
    mmif_check parse fs p = ["exists", "valid", "laden", "error-views"] := by
  unfold mmif_check
  cases hf : fs p with
  | none => simp
  | some s =>
    cases hp : parse s with
    | unparseable => simp [hp]
    | parsed views =>
      by_cases hl : views.length = 0
      · simp [hp, hl]
      · by_cases he : (views.filter (fun b => b)).length > 0
        · simp [hp, hl, he]
        · simp [hp, hl, he]

/-- A laden artifact is in particular syntactically valid. -/
lemma valid_mem_of_laden {parse : String → MmifClass} {fs : FS} {p : String}
    (h : "laden" ∈ mmif_check parse fs p) :
    "valid" ∈ mmif_check parse fs p := by
  rcases mmif_check_cases parse fs p with hc | hc | hc | hc | hc <;>
    rw [hc] at h ⊢ <;> revert h <;> decide

/-- A laden artifact exists on disk. -/
lemma isSome_of_laden {parse : String → MmifClass} {fs : FS} {p : String}
    (h : "laden" ∈ mmif_check parse fs p) : (fs p).isSome = true := by
  cases hf : fs p with
  | none =>
    have hc : mmif_check parse fs p = ["absent"] := by
      unfold mmif_check; rw [hf]
    rw [hc] at h
    exact absurd h (by decide)
  | some s => simp

/-- A blank artifact is not laden. -/
lemma not_laden_of_blank {parse : String → MmifClass} {fs : FS} {p : String}
    (h : "blank" ∈ mmif_check parse fs p) :
    "laden" ∉ mmif_check parse fs p := by
  rcases mmif_check_cases parse fs p with hc | hc | hc | hc | hc <;>
    rw [hc] at h ⊢ <;> revert h <;> decide

/-! ## C6 -/

/-- C6: the validator's flag list is mutually exclusive where defined —
"absent" never co-occurs with "valid", "invalid", "blank", "laden" or
"error-views"; "invalid" never co-occurs with "blank", "laden" or
"error-views"; exactly one of "blank"/"laden" appears whenever "valid"
appears; and "error-views" appears only together with "laden". -/
theorem c6_validator_exclusive (parse : String → MmifClass) (fs : FS)
    (p : String) :
    ("absent" ∈ mmif_check parse fs p →
        "valid" ∉ mmif_check parse fs p ∧ "invalid" ∉ mmif_check parse fs p ∧
        "blank" ∉ mmif_check parse fs p ∧ "laden" ∉ mmif_check parse fs p ∧
        "error-views" ∉ mmif_check parse fs p) ∧
    ("invalid" ∈ mmif_check parse fs p →
        "blank" ∉ mmif_check parse fs p ∧ "laden" ∉ mmif_check parse fs p ∧
        "error-views" ∉ mmif_check parse fs p) ∧
    ("valid" ∈ mmif_check parse fs p →
        ("blank" ∈ mmif_check parse fs p ↔ "laden" ∉ mmif_check parse fs p)) ∧
    ("error-views" ∈ mmif_check parse fs p →
        "laden" ∈ mmif_check parse fs p) := by
  rcases mmif_check_cases parse fs p with hc | hc | hc | hc | hc <;>
    rw [hc] <;> decide

/-- Witness for C6: at a concrete error-views artifact, the theorem's last
conjunct (with its hypothesis discharged by computation) yields "laden". -/
theorem c6_witness : "laden" ∈ mmif_check parse_ev fs_ev "e.mmif" :=
  (c6_validator_exclusive parse_ev fs_ev "e.mmif").2.2.2 (by decide)

/-! ## C10 -/

/-- C10: for every path (existing or not, parseable or not) the validator is
total and returns a non-empty flag list whose first element is exactly one of
"absent" or "exists" — in particular the source's assertion that the list is
non-empty never fails. -/
theorem c10_validator_total (parse : String → MmifClass) (fs : FS)
    (p : String) :
    mmif_check parse fs p ≠ [] ∧
    ((mmif_check parse fs p).head? = some "absent" ∨
      (mmif_check parse fs p).head? = some "exists") ∧
    ¬((mmif_check parse fs p).head? = some "absent" ∧
      (mmif_check parse fs p).head? = some "exists") := by
  rcases mmif_check_cases parse fs p with hc | hc | hc | hc | hc <;>
    rw [hc] <;> decide

/-! ## Download-loop lemmas -/

/-- The download loop writes exactly the sum of the consumed chunk prefix,
consumes at most the whole stream, and only reports the ceiling `break`
when the ceiling was in fact reached. -/
lemma dl_loop_spec (limit : Nat) (chunks : List Nat) :
    ∀ b : Nat,
      (dl_loop limit chunks b).1 =
          b + (chunks.take (dl_loop limit chunks b).2.1).sum ∧
      (dl_loop limit chunks b).2.1 ≤ chunks.length ∧
      ((dl_loop limit chunks b).2.2 = true →
        limit ≤ (dl_loop limit chunks b).1) := by
  induction chunks with
  | nil => intro b; simp [dl_loop]
  | cons chunk rest ih =>
    intro b
    have hb2 : (if chunk ≠ 0 then b + chunk else b) = b + chunk := by
      by_cases hz : chunk = 0
      · simp [hz]
      · simp [hz]
    by_cases hlim : limit ≤ b + chunk
    · have hres : dl_loop limit (chunk :: rest) b = (b + chunk, 1, true) := by
        simp only [dl_loop, hb2]
        rw [if_pos hlim]
      rw [hres]
      exact ⟨by simp, by simp, fun _ => hlim⟩
    · have hres : dl_loop limit (chunk :: rest) b =
          ((dl_loop limit rest (b + chunk)).1,
           (dl_loop limit rest (b + chunk)).2.1 + 1,
           (dl_loop limit rest (b + chunk)).2.2) := by
        simp only [dl_loop, hb2]
        rw [if_neg hlim]
      obtain ⟨ih1, ih2, ih3⟩ := ih (b + chunk)
      rw [hres]
      refine ⟨?_, ?_, fun h => ih3 h⟩
      · simp only [List.take_succ_cons, List.sum_cons]
        omega
      · simpa using Nat.succ_le_succ ih2

/-- On a 200 response, `download_media` is the record built from the loop
outcome. -/
lemma download_media_200 (limit : Nat) (filename : String) (e : DlEnv)
    (hst : e.status = 200) :
    download_media limit filename e =
      { bytes_saved := (dl_loop limit e.chunks 0).1
        chunks_consumed := (dl_loop limit e.chunks 0).2.1
        success := (dl_loop limit e.chunks 0).2.2 || !e.stream_raises
        promoted := ((dl_loop limit e.chunks 0).2.2 || !e.stream_raises) &&
          !e.final_exists
        returned := if ((dl_loop limit e.chunks 0).2.2 || !e.stream_raises)
          then some filename else none } := by
  unfold download_media
  rw [hst]
  simp

/-! ## C4 -/

/-- Counterexample for C4: a 200-status download whose first chunk reaches
the byte ceiling stops the transfer after that chunk, yet `success` is set,
the partial file IS renamed to the final name, and the filename IS returned
as resolved — contradicting "never promoted and never reported resolved". -/
theorem c4_byte_ceiling_cex :
    (download_media BYTES_LIMIT "cpb-aacip-x.mp4" dl_env_cex).chunks_consumed
        = 1 ∧
    (download_media BYTES_LIMIT "cpb-aacip-x.mp4" dl_env_cex).success = true ∧
    (download_media BYTES_LIMIT "cpb-aacip-x.mp4" dl_env_cex).promoted = true ∧
    (download_media BYTES_LIMIT "cpb-aacip-x.mp4" dl_env_cex).returned =
        some "cpb-aacip-x.mp4" := by
  decide

/-- C4 amended: when a 200-status download reaches the configured byte
ceiling, the transfer stops (only a prefix of the stream is consumed and the
bytes saved are exactly that prefix's sum, at or past the ceiling), but the
truncated file is treated as a success: it is renamed to the final media
filename whenever no file already sits there, and the filename is reported
as resolved.  Only an exception during streaming (or a non-200 status)
leaves the partial file unpromoted and unreported. -/
theorem c4_byte_ceiling_amended (limit : Nat) (filename : String) (e : DlEnv)
    (hst : e.status = 200)
    (hhit : (dl_loop limit e.chunks 0).2.2 = true) :
    (download_media limit filename e).success = true ∧
    (download_media limit filename e).returned = some filename ∧
    (download_media limit filename e).promoted = !e.final_exists ∧
    limit ≤ (download_media limit filename e).bytes_saved ∧
    (download_media limit filename e).chunks_consumed ≤ e.chunks.length ∧
    (download_media limit filename e).bytes_saved =
      (e.chunks.take (download_media limit filename e).chunks_consumed).sum := by
  obtain ⟨h1, h2, h3⟩ := dl_loop_spec limit e.chunks 0
  rw [download_media_200 limit filename e hst]
  simp only [hhit, Bool.true_or, Bool.true_and, if_pos]
  refine ⟨trivial, trivial, trivial, h3 hhit, h2, by simpa using h1⟩

/-- Witness for C4's amended theorem at a concrete ceiling-reaching stream:
limit 10, chunks [4, 7]. -/
theorem c4_witness :
    (download_media 10 "f.mp4" dl_env_wit).success = true ∧
    (download_media 10 "f.mp4" dl_env_wit).returned = some "f.mp4" ∧
    (download_media 10 "f.mp4" dl_env_wit).promoted =
        !dl_env_wit.final_exists ∧
    10 ≤ (download_media 10 "f.mp4" dl_env_wit).bytes_saved ∧
    (download_media 10 "f.mp4" dl_env_wit).chunks_consumed ≤
        dl_env_wit.chunks.length ∧
    (download_media 10 "f.mp4" dl_env_wit).bytes_saved =
      (dl_env_wit.chunks.take
        (download_media 10 "f.mp4" dl_env_wit).chunks_consumed).sum :=
  c4_byte_ceiling_amended 10 "f.mp4" dl_env_wit rfl (by decide)

/-! ## C8 -/

/-- With no `include_only_items` filter, the k-th (0-based) selected item
has item number `start_after_item + k + 1`, i.e. its 1-based dispatch
position among the selected items is `item_num - start_after_item`. -/
lemma select_batch_none_getD (cf : Config) (total k : Nat)
    (hio : cf.include_only_items = none)
    (hk : k < (select_batch cf total).length) :
    (select_batch cf total).getD k 0 = cf.start_after_item + k + 1 := by
  simp only [select_batch, hio] at hk ⊢
  rw [List.length_take, List.length_drop, List.length_map,
      List.length_range] at hk
  rw [List.getD_eq_getElem?_getD, List.getElem?_take,
      if_pos (show k < cf.end_after_item - cf.start_after_item by omega),
      List.getElem?_drop, List.getElem?_map,
      List.getElem?_range (show cf.start_after_item + k < total by omega)]
  rfl

/-- Counterexample for C8: with degree 2, stagger 10s and the filter
`include_only_items = [1, 3]`, the selected items are 1 and 3, and the item
in dispatch position 2 (item 3) sleeps 0 seconds rather than the
`stagger × (2 − 1) = 10` the claim requires for one of the first `degree`
dispatched items. -/
theorem c8_stagger_cex :
    select_batch cf8 3 = [1, 3] ∧
    (select_batch cf8 3).getD 1 0 = 3 ∧
    2 ≤ cf8.parallel ∧
    stagger_delay cf8 ((select_batch cf8 3).getD 1 0) = 0 ∧
    cf8.stagger * (2 - 1) = 10 := by
  decide

/-- C8 amended: the stagger delay is computed from
`item_num − start_after_item`, not from the dispatch position; the two agree
exactly when `include_only_items` is unset.  In that case the k-th selected
item (1-based position `k+1`) has item number `start_after_item + k + 1` and
sleeps `stagger × k` seconds when `k + 1 ≤ parallel`, and does not sleep at
all otherwise; with an `include_only_items` filter the positions can
diverge, and an early-position item may start unstaggered. -/
theorem c8_stagger_amended (cf : Config) (total k : Nat)
    (hio : cf.include_only_items = none)
    (hk : k < (select_batch cf total).length) :
    (select_batch cf total).getD k 0 = cf.start_after_item + k + 1 ∧
    stagger_delay cf ((select_batch cf total).getD k 0) =
      if k + 1 ≤ cf.parallel then cf.stagger * k else 0 := by
  have hg := select_batch_none_getD cf total k hio hk
  refine ⟨hg, ?_⟩
  rw [hg]
  unfold stagger_delay
  rw [show cf.start_after_item + k + 1 - cf.start_after_item = k + 1 by omega]
  by_cases h : k + 1 ≤ cf.parallel
  · rw [if_pos h, if_pos h, Nat.add_sub_cancel]
  · rw [if_neg h, if_neg h]

/-- Witness for C8's amended theorem: same run as the counterexample but
without the filter; the second dispatched item is item 2 and sleeps
`10 × 1` seconds. -/
theorem c8_witness :
    (select_batch cf8b 3).getD 1 0 = cf8b.start_after_item + 1 + 1 ∧
    stagger_delay cf8b ((select_batch cf8b 3).getD 1 0) =
      if 1 + 1 ≤ cf8b.parallel then cf8b.stagger * 1 else 0 :=
  c8_stagger_amended cf8b 3 1 rfl (by decide)

/-! ## C9 -/

/-- C9: the input batch record is unchanged by processing an item — all
run-state fields are written to the fresh copy created at run_job.py:725,
never to the record passed in (modelled by threading `batch_item` through
`run_item` explicitly). -/
theorem c9_batch_item_unchanged (cf : Config) (env : Env) (b : BatchItem) :
    (run_item cf env b).batch_item = b := by
  unfold run_item
  cases hm : media_phase cf env (init_item b) with
  | early r fs => rfl
  | proceed item1 fs1 =>
    dsimp only
    cases hb : blank_phase cf env item1 fs1 with
    | skipped r fs2 cl => rfl
    | proceed st0 =>
      dsimp only
      cases hr : run_stages cf env env.apps st0 with
      | error e => rfl
      | ok st1 =>
        dsimp only
        cases hc : st1.clams_failed
        · simp only [hc, Bool.false_eq_true, if_false]
          cases hp : post_phase env st1 with
          | pp_skipped r => rfl
          | done r => rfl
        · simp [hc]

/-! ## Stage-loop shape lemmas -/

/-- A latched failure makes one stage iteration a no-op (`continue`). -/
lemma run_stage_failed (cf : Config) (env : Env) (beh : StageBehavior)
    (st : LoopState) (h : st.clams_failed = true) :
    run_stage cf env beh st = .ok st := by
  unfold run_stage
  rw [h]
  rfl

/-- A latched failure makes the whole remaining loop a no-op. -/
lemma run_stages_failed (cf : Config) (env : Env) (l : List StageBehavior)
    (st : LoopState) (h : st.clams_failed = true) :
    run_stages cf env l st = .ok st := by
  induction l with
  | nil => rfl
  | cons beh rest ih =>
    simp only [run_stages, run_stage_failed cf env beh st h]
    exact ih

/-- Field-level description of the output gate. -/
lemma stage_gate_fields (parse : String → MmifClass) (mmifi : Nat)
    (f p : String) (st : LoopState) :
    (stage_gate parse mmifi f p st).mmifi = mmifi ∧
    (stage_gate parse mmifi f p st).item.asset_id = st.item.asset_id ∧
    (stage_gate parse mmifi f p st).invocations = st.invocations ∧
    (((stage_gate parse mmifi f p st).clams_failed = st.clams_failed ∧
        (stage_gate parse mmifi f p st).item.mmif_paths =
          st.item.mmif_paths ++ [p] ∧
        (stage_gate parse mmifi f p st).stages_completed =
          st.stages_completed ++ [mmifi]) ∨
      ((stage_gate parse mmifi f p st).clams_failed = true ∧
        (stage_gate parse mmifi f p st).item.mmif_paths =
          st.item.mmif_paths ∧
        (stage_gate parse mmifi f p st).stages_completed =
          st.stages_completed)) := by
  unfold stage_gate
  dsimp only
  split
  · exact ⟨rfl, rfl, rfl, Or.inl ⟨rfl, rfl, rfl⟩⟩
  · exact ⟨rfl, rfl, rfl, Or.inr ⟨rfl, rfl, rfl⟩⟩

/-- Structure of one successful stage iteration: a latched no-op, or a step
that advances `mmifi` by one, preserves the asset id, performs at most one
invocation (never a POST whose outcome is a connection failure — that path
aborts), and either completes the stage (appending exactly one artifact path
and the stage index) or latches the failure leaving paths untouched. -/
lemma run_stage_ok_shape (cf : Config) (env : Env) (beh : StageBehavior)
    (st st2 : LoopState) (h : run_stage cf env beh st = .ok st2) :
    (st.clams_failed = true ∧ st2 = st) ∨
    (st.clams_failed = false ∧ st2.mmifi = st.mmifi + 1 ∧
      st2.item.asset_id = st.item.asset_id ∧
      (st2.invocations = st.invocations ∨
        ∃ inv, st2.invocations = st.invocations ++ [inv] ∧
          Invocation.stage inv = st.mmifi + 1 ∧
          beh ≠ StageBehavior.http HttpOutcome.exn) ∧
      ((st2.clams_failed = false ∧
          (∃ p, st2.item.mmif_paths = st.item.mmif_paths ++ [p]) ∧
          st2.stages_completed = st.stages_completed ++ [st.mmifi + 1]) ∨
        (st2.clams_failed = true ∧
          st2.item.mmif_paths = st.item.mmif_paths ∧
          st2.stages_completed = st.stages_completed))) := by
  simp only [run_stage] at h
  split at h
  case isTrue hcf =>
    injection h with h
    exact Or.inl ⟨hcf, h.symm⟩
  case isFalse hcf =>
    have hcf' : st.clams_failed = false := by
      cases hx : st.clams_failed
      · rfl
      · exact absurd hx hcf
    split at h
    case isTrue hmk =>
      -- reuse of an existing valid artifact
      injection h with h
      subst h
      refine Or.inr ⟨hcf', ?_⟩
      obtain ⟨g1, g2, g3, g4⟩ := stage_gate_fields env.parse (st.mmifi + 1) _ _ st
      refine ⟨g1, g2, Or.inl g3, ?_⟩
      rcases g4 with ⟨ga, gb, gc⟩ | ⟨ga, gb, gc⟩
      · exact Or.inl ⟨ga.trans hcf', ⟨_, gb⟩, gc⟩
      · exact Or.inr ⟨ga, gb, gc⟩
    case isFalse hmk =>
      split at h
      case isTrue hval =>
        -- prerequisite failure
        injection h with h
        subst h
        exact Or.inr ⟨hcf', rfl, rfl, Or.inl rfl, Or.inr ⟨rfl, rfl, rfl⟩⟩
      case isFalse hval =>
        cases beh with
        | http o =>
          cases o with
          | exn => exact absurd h (by simp)
          | resp status body =>
            injection h with h
            subst h
            refine Or.inr ⟨hcf', ?_⟩
            obtain ⟨g1, g2, g3, g4⟩ :=
              stage_gate_fields env.parse (st.mmifi + 1) _ _
                { st with
                    fs := if ((if status ≠ 0 then
                        (body, if status = 500 then
                          (cf.mmif_dir ++ "/" ++
                            stage_mmif_filename cf st.item.asset_id
                              (st.mmifi + 1)) ++ "500"
                        else cf.mmif_dir ++ "/" ++
                          stage_mmif_filename cf st.item.asset_id
                            (st.mmifi + 1))
                      else
                        ((st.fs (st.item.mmif_paths.getD (st.mmifi + 1 - 1)
                            "")).getD "",
                          cf.mmif_dir ++ "/" ++
                            stage_mmif_filename cf st.item.asset_id
                              (st.mmifi + 1))).1 ≠ "")
                      then fsWrite st.fs _ _ else st.fs
                    invocations := st.invocations ++
                      [Invocation.http_post (st.mmifi + 1)] }
            refine ⟨g1, g2, ?_, ?_⟩
            · exact Or.inr ⟨_, g3, rfl, by simp⟩
            · rcases g4 with ⟨ga, gb, gc⟩ | ⟨ga, gb, gc⟩
              · exact Or.inl ⟨ga.trans hcf', ⟨_, gb⟩, gc⟩
              · exact Or.inr ⟨ga, gb, gc⟩
        | docker o =>
          dsimp only at h
          split at h
          · exact absurd h (by simp)
          · injection h with h
            subst h
            refine Or.inr ⟨hcf', ?_⟩
            have hpa : (if o.stderr_nonempty then
                { st.item with problems := st.item.problems ++
                    ["clams-" ++ toString (st.mmifi + 1 - 1) ++ ":stderr"] }
                else st.item).asset_id = st.item.asset_id := by
              split <;> rfl
            have hpp : (if o.stderr_nonempty then
                { st.item with problems := st.item.problems ++
                    ["clams-" ++ toString (st.mmifi + 1 - 1) ++ ":stderr"] }
                else st.item).mmif_paths = st.item.mmif_paths := by
              split <;> rfl
            obtain ⟨g1, g2, g3, g4⟩ :=
              stage_gate_fields env.parse (st.mmifi + 1) _ _ _
            refine ⟨g1, g2.trans hpa, ?_, ?_⟩
            · exact Or.inr ⟨_, g3, rfl, by simp⟩
            · rcases g4 with ⟨ga, gb, gc⟩ | ⟨ga, gb, gc⟩
              · exact Or.inl ⟨ga.trans hcf', ⟨_, gb.trans (by rw [hpp])⟩, gc⟩
              · exact Or.inr ⟨ga, gb.trans hpp, gc⟩

/-- Structure of a fatally-aborted stage iteration: it was not latched, and
either a POST hit a connection failure (recording that POST as the last
invocation) or the platform was unsupported (recording no new invocation). -/
lemma run_stage_error_shape (cf : Config) (env : Env) (beh : StageBehavior)
    (st : LoopState) (f : Fatal) (invs : List Invocation)
    (h : run_stage cf env beh st = .error (f, invs)) :
    st.clams_failed = false ∧
    ((f = Fatal.http_down ∧ beh = StageBehavior.http HttpOutcome.exn ∧
        invs = st.invocations ++ [Invocation.http_post (st.mmifi + 1)]) ∨
      (f = Fatal.bad_os ∧ invs = st.invocations)) := by
  simp only [run_stage] at h
  split at h
  case isTrue hcf => exact absurd h (by simp)
  case isFalse hcf =>
    have hcf' : st.clams_failed = false := by
      cases hx : st.clams_failed
      · rfl
      · exact absurd hx hcf
    refine ⟨hcf', ?_⟩
    split at h
    case isTrue hmk => exact absurd h (by simp)
    case isFalse hmk =>
      split at h
      case isTrue hval => exact absurd h (by simp)
      case isFalse hval =>
        cases beh with
        | http o =>
          cases o with
          | exn =>
            injection h with h
            obtain ⟨h1, h2⟩ := Prod.mk.injEq .. ▸ h
            exact Or.inl ⟨h1.symm, rfl, h2.symm⟩
          | resp status body => exact absurd h (by simp)
        | docker o =>
          dsimp only at h
          split at h
          · injection h with h
            obtain ⟨h1, h2⟩ := Prod.mk.injEq .. ▸ h
            exact Or.inr ⟨h1.symm, h2.symm⟩
          · exact absurd h (by simp)

/-! ## Phase field lemmas -/

/-- The media phase never touches the artifact-path list. -/
lemma media_check_item_paths (cf : Config) (item0 : TriedItem)
    (mfn : Option String) (mp : String) (fs : FS) :
    (media_check cf item0 mfn mp fs).item.mmif_paths = item0.mmif_paths := by
  unfold media_check
  cases mfn with
  | none => rfl
  | some fn =>
    cases hf : (fs mp).isSome with
    | true =>
      cases hj : cf.just_get_media with
      | true => simp [hf, hj, MediaPhase.item]
      | false => simp [hf, hj, MediaPhase.item]
    | false => simp [hf, MediaPhase.item]

/-- The media phase never touches the artifact-path list. -/
lemma media_phase_item_paths (cf : Config) (env : Env) (item0 : TriedItem) :
    (media_phase cf env (item0 : TriedItem)).item.mmif_paths =
      item0.mmif_paths := by
  unfold media_phase
  split
  · rfl
  · split
    · exact media_check_item_paths ..
    · split
      · split
        · exact media_check_item_paths ..
        · exact media_check_item_paths ..
      · exact media_check_item_paths ..

/-- Field facts about a blank phase that proceeds to the stage loop. -/
lemma blank_validate_proceed_fields (cf : Config) (env : Env)
    (item : TriedItem) (fs : FS) (f p : String) (st0 : LoopState)
    (h : blank_validate cf env item fs f p = .proceed st0) :
    st0.mmifi = 0 ∧ st0.clams_failed = false ∧ st0.invocations = [] ∧
    st0.stages_completed = [0] ∧
    (∃ q, st0.item.mmif_paths = item.mmif_paths ++ [q]) := by
  unfold blank_validate at h
  split at h
  · injection h with h
    subst h
    exact ⟨rfl, rfl, rfl, rfl, ⟨p, rfl⟩⟩
  · exact absurd h (by simp)

/-- Field facts about a blank phase that proceeds to the stage loop. -/
lemma blank_phase_proceed_fields (cf : Config) (env : Env)
    (item : TriedItem) (fs : FS) (st0 : LoopState)
    (h : blank_phase cf env item fs = .proceed st0) :
    st0.mmifi = 0 ∧ st0.clams_failed = false ∧ st0.invocations = [] ∧
    st0.stages_completed = [0] ∧
    (∃ q, st0.item.mmif_paths = item.mmif_paths ++ [q]) := by
  unfold blank_phase at h
  dsimp only at h
  by_cases h1 : (!cf.media_required) = true
  · rw [if_pos h1] at h
    injection h with h
    subst h
    exact ⟨rfl, rfl, rfl, rfl, ⟨"", rfl⟩⟩
  · rw [if_neg h1] at h
    by_cases h2 : ((fs (cf.mmif_dir ++ "/" ++ (item.asset_id ++ "_0.mmif"))).isSome
        && !cf.overwrite_mmif) = true
    · rw [if_pos h2] at h
      exact blank_validate_proceed_fields cf env item fs _ _ st0 h
    · rw [if_neg h2] at h
      by_cases h3 : (cf.media_required && item.media_filename == "") = true
      · rw [if_pos h3] at h
        exact absurd h (by simp)
      · rw [if_neg h3] at h
        exact blank_validate_proceed_fields cf env item _ _ _ st0 h

/-- A skipped blank phase never touches the artifact-path list. -/
lemma blank_validate_skipped_paths (cf : Config) (env : Env)
    (item : TriedItem) (fs : FS) (f p : String) (r : TriedItem) (fs2 : FS)
    (cl : Bool) (h : blank_validate cf env item fs f p = .skipped r fs2 cl) :
    r.mmif_paths = item.mmif_paths := by
  unfold blank_validate at h
  split at h
  · exact absurd h (by simp)
  · injection h with h1 h2 h3
    subst h1
    rfl

/-- A skipped blank phase never touches the artifact-path list. -/
lemma blank_phase_skipped_paths (cf : Config) (env : Env) (item : TriedItem)
    (fs : FS) (r : TriedItem) (fs2 : FS) (cl : Bool)
    (h : blank_phase cf env item fs = .skipped r fs2 cl) :
    r.mmif_paths = item.mmif_paths := by
  unfold blank_phase at h
  dsimp only at h
  by_cases h1 : (!cf.media_required) = true
  · rw [if_pos h1] at h
    exact absurd h (by simp)
  · rw [if_neg h1] at h
    by_cases h2 : ((fs (cf.mmif_dir ++ "/" ++ (item.asset_id ++ "_0.mmif"))).isSome
        && !cf.overwrite_mmif) = true
    · rw [if_pos h2] at h
      exact blank_validate_skipped_paths cf env item fs _ _ r fs2 cl h
    · rw [if_neg h2] at h
      by_cases h3 : (cf.media_required && item.media_filename == "") = true
      · rw [if_pos h3] at h
        injection h with h1 h2 h3
        subst h1
        rfl
      · rw [if_neg h3] at h
        exact blank_validate_skipped_paths cf env item _ _ _ r fs2 cl h

/-- One post-process changes no artifact paths. -/
lemma run_post_proc_paths (pp : PostProc) (item : TriedItem) :
    (run_post_proc pp item).mmif_paths = item.mmif_paths := by
  unfold run_post_proc
  cases hd : pp.dispatch
  · dsimp only
    split <;> split <;> split <;> rfl
  · dsimp only
    split <;> split <;> split <;> rfl
  · rfl
  · rfl

/-- The post-processing loop changes no artifact paths. -/
lemma run_post_procs_paths (pps : List PostProc) (item : TriedItem) :
    (run_post_procs pps item).mmif_paths = item.mmif_paths := by
  induction pps generalizing item with
  | nil => rfl
  | cons pp rest ih =>
    have : run_post_procs (pp :: rest) item =
        run_post_procs rest (run_post_proc pp item) := rfl
    rw [this, ih, run_post_proc_paths]

/-- The skipped post phase only sets the skip reason. -/
lemma post_phase_pp_skipped_fields (env : Env) (st : LoopState)
    (r : TriedItem) (h : post_phase env st = .pp_skipped r) :
    r.mmif_paths = st.item.mmif_paths := by
  unfold post_phase at h
  dsimp only at h
  split at h
  · exact absurd h (by simp)
  · split at h
    · injection h with h
      subst h
      rfl
    · exact absurd h (by simp)

/-- The completed post phase only appends tagged plugin output. -/
lemma post_phase_done_fields (env : Env) (st : LoopState) (r : TriedItem)
    (h : post_phase env st = .done r) :
    r.mmif_paths = st.item.mmif_paths := by
  unfold post_phase at h
  dsimp only at h
  split at h
  · injection h with h
    subst h
    rfl
  · split at h
    · exact absurd h (by simp)
    · injection h with h
      subst h
      exact run_post_procs_paths ..

/-! ## Stage-loop invariant preservation -/

/-- One successful stage iteration preserves the loop invariant and advances
`mmifi` by at most one. -/
lemma run_stage_preserves_inv (cf : Config) (env : Env) (beh : StageBehavior)
    (st st2 : LoopState) (h : run_stage cf env beh st = .ok st2)
    (hinv : stage_loop_inv st) :
    stage_loop_inv st2 ∧ st.mmifi ≤ st2.mmifi ∧ st2.mmifi ≤ st.mmifi + 1 := by
  obtain ⟨h1, h2, h3, h4⟩ := hinv
  rcases run_stage_ok_shape cf env beh st st2 h with ⟨hcf, rfl⟩ |
    ⟨hcf, hm, ha, hi, hrest⟩
  · exact ⟨⟨h1, h2, h3, h4⟩, le_refl _, Nat.le_succ _⟩
  · have hlen : st.item.mmif_paths.length = st.mmifi + 1 := h2 hcf
    have hinvoc : ∀ inv ∈ st2.invocations, Invocation.stage inv ≤ st2.mmifi := by
      intro inv hmem
      rcases hi with hie | ⟨inv2, hie, his, _⟩
      · rw [hie] at hmem
        exact le_trans (h4 inv hmem) (by omega)
      · rw [hie] at hmem
        rcases List.mem_append.mp hmem with hold | hnew
        · exact le_trans (h4 inv hold) (by omega)
        · rw [List.mem_singleton.mp hnew]
          omega
    rcases hrest with ⟨hf2, ⟨p, hp⟩, hsc⟩ | ⟨hf2, hp, hsc⟩
    · refine ⟨⟨?_, ?_, ?_, hinvoc⟩, by omega, by omega⟩
      · rw [hsc, hp, h1, List.length_append, List.length_singleton, hlen]
        exact (List.range_succ _).symm
      · intro _
        rw [hp, List.length_append, List.length_singleton, hlen, hm]
      · intro hx
        rw [hx] at hf2
        exact absurd hf2 (by simp)
    · refine ⟨⟨?_, ?_, ?_, hinvoc⟩, by omega, by omega⟩
      · rw [hsc, hp, h1]
      · intro hx
        rw [hx] at hf2
        exact absurd hf2 (by simp)
      · intro _
        rw [hp, hlen, hm]

/-- The whole stage loop preserves the invariant; `mmifi` grows by at most
the number of stages. -/
lemma run_stages_preserves_inv (cf : Config) (env : Env) :
    ∀ (l : List StageBehavior) (st st2 : LoopState),
      run_stages cf env l st = .ok st2 → stage_loop_inv st →
      stage_loop_inv st2 ∧ st2.mmifi ≤ st.mmifi + l.length := by
  intro l
  induction l with
  | nil =>
    intro st st2 h hinv
    have h' : (Except.ok st : Except (Fatal × List Invocation) LoopState) =
        .ok st2 := h
    injection h' with h'
    subst h'
    exact ⟨hinv, by omega⟩
  | cons beh rest ih =>
    intro st st2 h hinv
    unfold run_stages at h
    cases hs : run_stage cf env beh st with
    | error e =>
      rw [hs] at h
      exact absurd h (by simp)
    | ok stm =>
      rw [hs] at h
      have h' : run_stages cf env rest stm = .ok st2 := h
      obtain ⟨hinv2, hb1, hb2⟩ :=
        run_stage_preserves_inv cf env beh st stm hs hinv
      obtain ⟨hinv3, hb3⟩ := ih stm st2 h' hinv2
      refine ⟨hinv3, ?_⟩
      simp only [List.length_cons]
      omega

/-! ## Master case analysis of `run_item` -/

/-- Combined structure of one `run_item` call: when no fatal abort occurs
the item is recorded, its completed stages are exactly `0 .. |mmif_paths|−1`,
and if the stage-loop failure latched then the path-list length equals the
final `mmifi` (which is at most the number of stages), the skip reason names
that stage, media cleanup ran, and no invocation targeted a later stage.
When a fatal abort occurs, the item is never recorded. -/
lemma run_item_master (cf : Config) (env : Env) (b : BatchItem) :
    ((run_item cf env b).fatal = none →
      ∃ t, (run_item cf env b).tried = some t ∧
        (run_item cf env b).stages_completed =
          List.range t.mmif_paths.length ∧
        ((run_item cf env b).clams_failed = true →
          t.mmif_paths.length = (run_item cf env b).mmifi ∧
          (run_item cf env b).mmifi ≤ env.apps.length ∧
          t.skip_reason = "mmif-" ++ toString (run_item cf env b).mmifi ∧
          (run_item cf env b).cleanup_called = true ∧
          ∀ inv ∈ (run_item cf env b).invocations,
            Invocation.stage inv ≤ (run_item cf env b).mmifi)) ∧
    ((run_item cf env b).fatal ≠ none → (run_item cf env b).tried = none ∧
      (run_item cf env b).clams_failed = false) := by
  unfold run_item
  cases hm : media_phase cf env (init_item b) with
  | early r fs =>
    dsimp only
    constructor
    · intro _
      refine ⟨r, rfl, ?_, ?_⟩
      · have hp : r.mmif_paths = (init_item b).mmif_paths := by
          have h0 := media_phase_item_paths cf env (init_item b)
          rw [hm] at h0
          exact h0
        rw [hp]
        rfl
      · intro hx
        exact absurd hx (by simp)
    · intro hf
      exact absurd rfl hf
  | proceed item1 fs1 =>
    dsimp only
    have hitem1 : item1.mmif_paths = [] := by
      have h0 := media_phase_item_paths cf env (init_item b)
      rw [hm] at h0
      exact h0
    cases hb : blank_phase cf env item1 fs1 with
    | skipped r fs2 cl =>
      dsimp only
      constructor
      · intro _
        refine ⟨r, rfl, ?_, ?_⟩
        · rw [blank_phase_skipped_paths cf env item1 fs1 r fs2 cl hb, hitem1]
          rfl
        · intro hx
          exact absurd hx (by simp)
      · intro hf
        exact absurd rfl hf
    | proceed st0 =>
      dsimp only
      obtain ⟨hs1, hs2, hs3, hs4, q, hs5⟩ :=
        blank_phase_proceed_fields cf env item1 fs1 st0 hb
      have hinv0 : stage_loop_inv st0 := by
        refine ⟨?_, ?_, ?_, ?_⟩
        · rw [hs4, hs5, hitem1]
          rfl
        · intro _
          rw [hs5, hitem1, hs1]
          rfl
        · intro hx
          rw [hs2] at hx
          exact absurd hx (by simp)
        · intro inv hmem
          rw [hs3] at hmem
          exact absurd hmem (by simp)
      cases hr : run_stages cf env env.apps st0 with
      | error e =>
        dsimp only
        constructor
        · intro hf
          exact absurd hf (by simp)
        · intro _
          exact ⟨rfl, rfl⟩
      | ok st1 =>
        dsimp only
        obtain ⟨⟨j1, j2, j3, j4⟩, jb⟩ :=
          run_stages_preserves_inv cf env env.apps st0 st1 hr hinv0
        cases hc : st1.clams_failed with
        | true =>
          rw [if_pos rfl]
          constructor
          · intro _
            refine ⟨_, rfl, ?_, ?_⟩
            · exact j1
            · intro _
              refine ⟨j3 hc, ?_, rfl, rfl, j4⟩
              show st1.mmifi ≤ env.apps.length
              omega
          · intro hf
            exact absurd rfl hf
        | false =>
          rw [if_neg (show ¬false = true by simp)]
          cases hp : post_phase env st1 with
          | pp_skipped r =>
            dsimp only
            constructor
            · intro _
              refine ⟨r, rfl, ?_, ?_⟩
              · rw [post_phase_pp_skipped_fields env st1 r hp]
                exact j1
              · intro hx
                exact absurd hx (by simp)
            · intro hf
              exact absurd rfl hf
          | done r =>
            dsimp only
            constructor
            · intro _
              refine ⟨r, rfl, ?_, ?_⟩
              · rw [post_phase_done_fields env st1 r hp]
                exact j1
              · intro hx
                exact absurd hx (by simp)
            · intro hf
              exact absurd rfl hf

/-! ## C2 -/

/-- C2: for every TriedItem recorded in the run log, the completed stages
are exactly `0, 1, …, |mmif_paths| − 1` — hence the artifact-path list
length equals 1 + the index of the last completed stage whenever anything
completed (stage 0 is the blank artifact), and is 0 when nothing did — and
the length is strictly less than 1 + n (n = number of configured app
stages) whenever the stage-loop failure latched, which is exactly when
skip_reason was set during the stage loop. -/
theorem c2_mmif_paths_length (cf : Config) (env : Env) (b : BatchItem)
    (t : TriedItem) (h : (run_item cf env b).tried = some t) :
    (run_item cf env b).stages_completed = List.range t.mmif_paths.length ∧
    ((run_item cf env b).clams_failed = true →
      t.mmif_paths.length < 1 + env.apps.length) := by
  have hfat : (run_item cf env b).fatal = none := by
    by_contra hf
    have hn := ((run_item_master cf env b).2 hf).1
    rw [hn] at h
    exact absurd h (by simp)
  obtain ⟨t2, ht2, hsc, hfail⟩ := (run_item_master cf env b).1 hfat
  rw [h] at ht2
  injection ht2 with ht2
  subst ht2
  refine ⟨hsc, ?_⟩
  intro hc
  obtain ⟨e1, e2, _, _, _⟩ := hfail hc
  omega

/-- Witness for C2 at the concrete latched-failure run (one container stage
producing an unparseable output). -/
theorem c2_witness :
    (run_item cfA envC bA).stages_completed =
      List.range triedC.mmif_paths.length ∧
    ((run_item cfA envC bA).clams_failed = true →
      triedC.mmif_paths.length < 1 + envC.apps.length) :=
  c2_mmif_paths_length cfA envC bA triedC (by decide)

/-! ## C5 -/

/-- C5: once any stage of the app-invocation loop fails, the failure is
latched — no invocation (container run or HTTP POST) ever targets a stage
past the last attempted one — yet the item is still recorded in the run log
(after media cleanup), with skip_reason naming the last attempted stage
index. -/
theorem c5_latched_failure (cf : Config) (env : Env) (b : BatchItem)
    (hf : (run_item cf env b).clams_failed = true) :
    ∃ t, (run_item cf env b).tried = some t ∧
      t.skip_reason = "mmif-" ++ toString (run_item cf env b).mmifi ∧
      (run_item cf env b).cleanup_called = true ∧
      ∀ inv ∈ (run_item cf env b).invocations,
        Invocation.stage inv ≤ (run_item cf env b).mmifi := by
  have hfat : (run_item cf env b).fatal = none := by
    by_contra hff
    have hn := ((run_item_master cf env b).2 hff).2
    rw [hn] at hf
    exact absurd hf (by simp)
  obtain ⟨t, ht, _, hfail⟩ := (run_item_master cf env b).1 hfat
  obtain ⟨_, _, e3, e4, e5⟩ := hfail hf
  exact ⟨t, ht, e3, e4, e5⟩

/-- Witness for C5 at the concrete latched-failure run. -/
theorem c5_witness :
    ∃ t, (run_item cfA envC bA).tried = some t ∧
      t.skip_reason = "mmif-" ++ toString (run_item cfA envC bA).mmifi ∧
      (run_item cfA envC bA).cleanup_called = true ∧
      ∀ inv ∈ (run_item cfA envC bA).invocations,
        Invocation.stage inv ≤ (run_item cfA envC bA).mmifi :=
  c5_latched_failure cfA envC bA (by decide)

/-! ## Invocation-tracking lemmas for the stage loop -/

/-- Every invocation present after a non-fatal run of the loop either was
already there, or belongs to some stage of the list whose behavior is not a
failing POST (a failing POST can never be survived). -/
lemma run_stages_ok_invs (cf : Config) (env : Env) :
    ∀ (l : List StageBehavior) (st st2 : LoopState),
      run_stages cf env l st = .ok st2 →
      ∀ inv ∈ st2.invocations, inv ∈ st.invocations ∨
        ∃ i, i < l.length ∧ Invocation.stage inv = st.mmifi + 1 + i ∧
          l.get? i ≠ some (StageBehavior.http HttpOutcome.exn) := by
  intro l
  induction l with
  | nil =>
    intro st st2 h inv hmem
    have h' : (Except.ok st : Except (Fatal × List Invocation) LoopState) =
        .ok st2 := h
    injection h' with h'
    subst h'
    exact Or.inl hmem
  | cons beh rest ih =>
    intro st st2 h inv hmem
    unfold run_stages at h
    cases hs : run_stage cf env beh st with
    | error e =>
      rw [hs] at h
      exact absurd h (by simp)
    | ok stm =>
      rw [hs] at h
      have h' : run_stages cf env rest stm = .ok st2 := h
      rcases run_stage_ok_shape cf env beh st stm hs with ⟨hcf, rfl⟩ |
        ⟨hcf, hm, ha, hi, hrest⟩
      · rw [run_stages_failed cf env rest _ hcf] at h'
        injection h' with h'
        subst h'
        exact Or.inl hmem
      · rcases ih stm st2 h' inv hmem with hold | ⟨i, hi1, hi2, hi3⟩
        · rcases hi with hie | ⟨inv2, hie, his, hne⟩
          · rw [hie] at hold
            exact Or.inl hold
          · rw [hie] at hold
            rcases List.mem_append.mp hold with h1 | h2
            · exact Or.inl h1
            · rw [List.mem_singleton.mp h2]
              refine Or.inr ⟨0, by simp, by simpa using his, ?_⟩
              simpa using hne
        · refine Or.inr ⟨i + 1, by simpa using Nat.succ_lt_succ hi1, ?_, ?_⟩
          · rw [hm] at hi2
            omega
          · simpa using hi3

/-- Every invocation carried by a fatal abort of the loop either predates
the loop, belongs to a survived (non-failing-POST) stage, or — exactly when
the abort is the dead-service one — is the failing POST itself. -/
lemma run_stages_error_invs (cf : Config) (env : Env) :
    ∀ (l : List StageBehavior) (st : LoopState) (f : Fatal)
      (invs : List Invocation),
      run_stages cf env l st = .error (f, invs) →
      ∀ inv ∈ invs, inv ∈ st.invocations ∨
        (∃ i, i < l.length ∧ Invocation.stage inv = st.mmifi + 1 + i ∧
          l.get? i ≠ some (StageBehavior.http HttpOutcome.exn)) ∨
        (f = Fatal.http_down ∧ ∃ i, i < l.length ∧
          Invocation.stage inv = st.mmifi + 1 + i ∧
          l.get? i = some (StageBehavior.http HttpOutcome.exn)) := by
  intro l
  induction l with
  | nil =>
    intro st f invs h
    have h' : (Except.ok st : Except (Fatal × List Invocation) LoopState) =
        .error (f, invs) := h
    exact absurd h' (by simp)
  | cons beh rest ih =>
    intro st f invs h inv hmem
    unfold run_stages at h
    cases hs : run_stage cf env beh st with
    | error e =>
      rw [hs] at h
      have h' : (Except.error e :
          Except (Fatal × List Invocation) LoopState) = .error (f, invs) := h
      injection h' with h'
      rw [h'] at hs
      obtain ⟨hcf, hshape⟩ := run_stage_error_shape cf env beh st f invs hs
      rcases hshape with ⟨hf0, hbeh, hinvs⟩ | ⟨hf0, hinvs⟩
      · rw [hinvs] at hmem
        rcases List.mem_append.mp hmem with h1 | h2
        · exact Or.inl h1
        · rw [List.mem_singleton.mp h2]
          refine Or.inr (Or.inr ⟨hf0, 0, by simp, rfl, ?_⟩)
          rw [hbeh]
          simp
      · rw [hinvs] at hmem
        exact Or.inl hmem
    | ok stm =>
      rw [hs] at h
      have h' : run_stages cf env rest stm = .error (f, invs) := h
      rcases run_stage_ok_shape cf env beh st stm hs with ⟨hcf, rfl⟩ |
        ⟨hcf, hm, ha, hi, hrest⟩
      · rw [run_stages_failed cf env rest _ hcf] at h'
        exact absurd h' (by simp)
      · cases hcm : stm.clams_failed with
        | true =>
          rw [run_stages_failed cf env rest stm hcm] at h'
          exact absurd h' (by simp)
        | false =>
          rcases ih stm f invs h' inv hmem with hold | ⟨i, hi1, hi2, hi3⟩ |
            ⟨hf0, i, hi1, hi2, hi3⟩
          · rcases hi with hie | ⟨inv2, hie, his, hne⟩
            · rw [hie] at hold
              exact Or.inl hold
            · rw [hie] at hold
              rcases List.mem_append.mp hold with h1 | h2
              · exact Or.inl h1
              · rw [List.mem_singleton.mp h2]
                refine Or.inr (Or.inl ⟨0, by simp, by simpa using his, ?_⟩)
                simpa using hne
          · refine Or.inr (Or.inl ⟨i + 1,
              by simpa using Nat.succ_lt_succ hi1, ?_, ?_⟩)
            · rw [hm] at hi2
              omega
            · simpa using hi3
          · refine Or.inr (Or.inr ⟨hf0, i + 1,
              by simpa using Nat.succ_lt_succ hi1, ?_, ?_⟩)
            · rw [hm] at hi2
              omega
            · simpa using hi3

/-- Every invocation a `run_item` call performs targets a configured stage;
an invocation of a stage whose configured behavior is a failing POST occurs
only on the dead-service fatal path. -/
lemma run_item_invocations (cf : Config) (env : Env) (b : BatchItem) :
    ∀ inv ∈ (run_item cf env b).invocations,
      (∃ i, i < env.apps.length ∧ Invocation.stage inv = i + 1 ∧
        env.apps.get? i ≠ some (StageBehavior.http HttpOutcome.exn)) ∨
      ((run_item cf env b).fatal = some Fatal.http_down ∧
        ∃ i, i < env.apps.length ∧ Invocation.stage inv = i + 1 ∧
          env.apps.get? i = some (StageBehavior.http HttpOutcome.exn)) := by
  unfold run_item
  cases hm : media_phase cf env (init_item b) with
  | early r fs =>
    intro inv hmem
    exact absurd hmem (by simp)
  | proceed item1 fs1 =>
    dsimp only
    cases hb : blank_phase cf env item1 fs1 with
    | skipped r fs2 cl =>
      intro inv hmem
      exact absurd hmem (by simp)
    | proceed st0 =>
      dsimp only
      obtain ⟨hs1, hs2, hs3, hs4, q, hs5⟩ :=
        blank_phase_proceed_fields cf env item1 fs1 st0 hb
      cases hr : run_stages cf env env.apps st0 with
      | error e =>
        dsimp only
        intro inv hmem
        obtain ⟨f0, invs0⟩ := e
        rcases run_stages_error_invs cf env env.apps st0 f0 invs0 hr inv hmem
          with hold | ⟨i, hi1, hi2, hi3⟩ | ⟨hf0, i, hi1, hi2, hi3⟩
        · rw [hs3] at hold
          exact absurd hold (by simp)
        · refine Or.inl ⟨i, hi1, ?_, hi3⟩
          rw [hs1] at hi2
          omega
        · refine Or.inr ⟨by rw [hf0], i, hi1, ?_, hi3⟩
          rw [hs1] at hi2
          omega
      | ok st1 =>
        dsimp only
        have hbody : ∀ inv ∈ st1.invocations,
            (∃ i, i < env.apps.length ∧ Invocation.stage inv = i + 1 ∧
              env.apps.get? i ≠ some (StageBehavior.http HttpOutcome.exn)) := by
          intro inv hmem
          rcases run_stages_ok_invs cf env env.apps st0 st1 hr inv hmem with
            hold | ⟨i, hi1, hi2, hi3⟩
          · rw [hs3] at hold
            exact absurd hold (by simp)
          · refine ⟨i, hi1, ?_, hi3⟩
            rw [hs1] at hi2
            omega
        cases hc : st1.clams_failed with
        | true =>
          rw [if_pos rfl]
          intro inv hmem
          exact Or.inl (hbody inv hmem)
        | false =>
          rw [if_neg (show ¬false = true by simp)]
          cases hp : post_phase env st1 with
          | pp_skipped r =>
            intro inv hmem
            exact Or.inl (hbody inv hmem)
          | done r =>
            intro inv hmem
            exact Or.inl (hbody inv hmem)

/-! ## Serial batch-driver lemmas -/

/-- A fatal item makes the batch outcome independent of everything queued
after it: the later items are never attempted. -/
lemma run_batch_fatal_stops (cf : Config) (b : BatchItem) (env : Env)
    (hf : (run_item cf env b).fatal ≠ none) :
    ∀ (pre post post' : List (BatchItem × Env)),
      run_batch cf (pre ++ (b, env) :: post) =
        run_batch cf (pre ++ (b, env) :: post') := by
  intro pre
  induction pre with
  | nil =>
    intro post post'
    simp only [List.nil_append, run_batch]
    cases hfa : (run_item cf env b).fatal with
    | none => exact absurd hfa hf
    | some f => rfl
  | cons hd tl ih =>
    intro post post'
    obtain ⟨b0, e0⟩ := hd
    simp only [List.cons_append, run_batch]
    cases hfa : (run_item cf e0 b0).fatal with
    | some f => rfl
    | none =>
      dsimp only
      simp only [List.append_eq]
      rw [ih post post']

/-- A non-fatal item is appended to the log and the batch continues. -/
lemma run_batch_cons_ok (cf : Config) (b : BatchItem) (env : Env)
    (rest : List (BatchItem × Env))
    (hf : (run_item cf env b).fatal = none) :
    run_batch cf ((b, env) :: rest) =
      ((run_item cf env b).tried.toList ++ (run_batch cf rest).1,
        (run_batch cf rest).2) := by
  simp only [run_batch]
  rw [hf]

/-! ## C3 -/

/-- C3: a POST that raises a connection exception is fatal to the whole
run — the item is never recorded, and the batch outcome is independent of
every item queued after it (they are never attempted); every other per-item
failure leaves the item recorded in the log and the batch continues with
the remaining items (the only other batch-fatal condition is the
unsupported-platform abort, which equally never records the item). -/
theorem c3_http_fatal_scoping (cf : Config) (env : Env) (b : BatchItem) :
    (∀ j, env.apps.get? j = some (StageBehavior.http HttpOutcome.exn) →
      Invocation.http_post (j + 1) ∈ (run_item cf env b).invocations →
      (run_item cf env b).fatal = some Fatal.http_down ∧
      (run_item cf env b).tried = none) ∧
    ((run_item cf env b).fatal ≠ none →
      ∀ (pre post post' : List (BatchItem × Env)),
        run_batch cf (pre ++ (b, env) :: post) =
          run_batch cf (pre ++ (b, env) :: post')) ∧
    ((run_item cf env b).fatal = none →
      (∃ t, (run_item cf env b).tried = some t) ∧
      ∀ rest : List (BatchItem × Env),
        run_batch cf ((b, env) :: rest) =
          ((run_item cf env b).tried.toList ++ (run_batch cf rest).1,
            (run_batch cf rest).2)) := by
  refine ⟨?_, ?_, ?_⟩
  · intro j hj hmem
    rcases run_item_invocations cf env b (Invocation.http_post (j + 1)) hmem
      with ⟨i, hi1, hi2, hi3⟩ | ⟨hfat, _⟩
    · have : i = j := by
        simp only [Invocation.stage] at hi2
        omega
      rw [this] at hi3
      exact absurd hj hi3
    · refine ⟨hfat, ?_⟩
      exact ((run_item_master cf env b).2 (by rw [hfat]; simp)).1
  · exact run_batch_fatal_stops cf b env
  · intro hf
    obtain ⟨t, ht, _, _⟩ := (run_item_master cf env b).1 hf
    exact ⟨⟨t, ht⟩, fun rest => run_batch_cons_ok cf b env rest hf⟩

/-- Witness for C3 at the concrete dead-service run (the single configured
stage POSTs and hits a connection failure). -/
theorem c3_witness :
    (run_item cfA envB bA).fatal = some Fatal.http_down ∧
    (run_item cfA envB bA).tried = none :=
  (c3_http_fatal_scoping cfA envB bA).1 0 rfl (by decide)

/-! ## C7 -/

/-- The output gate never touches the filesystem. -/
lemma stage_gate_fs (parse : String → MmifClass) (mmifi : Nat)
    (f p : String) (st : LoopState) :
    (stage_gate parse mmifi f p st).fs = st.fs := by
  unfold stage_gate
  dsimp only
  split <;> rfl

/-- Counterexample for C7: one HTTP stage answers 503 (a server-error
status) with a non-empty body; the body is written at the canonical stage
path, overwriting the prior artifact "OLD", and no suffixed file is
created — so the suffix is NOT appended for every server-error status (only
for 500), and the prior artifact is clobbered rather than preserved. -/
theorem c7_http_response_cex :
    env7.apps = [StageBehavior.http (HttpOutcome.resp 503 "NEWDOC")] ∧
    env7.fs "d/a_j_1.mmif" = some "OLD" ∧
    (run_item cfA env7 bA).invocations = [Invocation.http_post 1] ∧
    (run_item cfA env7 bA).fs "d/a_j_1.mmif" = some "NEWDOC" ∧
    (run_item cfA env7 bA).fs "d/a_j_1.mmif500" = none := by
  decide

/-- C7 amended: an executed HTTP stage that receives a response with a
truthy status code takes the response body as the new artifact document and
writes it to the stage's output path whenever the body is non-empty (an
empty body writes nothing); the filename suffix "500" is appended exactly
when the status is 500 — any other status, server-error or not, writes at
the canonical path, replacing whatever artifact was there. -/
theorem c7_http_response_amended (cf : Config) (env : Env) (st : LoopState)
    (status : Nat) (body : String)
    (hcf : st.clams_failed = false)
    (hmk : make_new_mmif_decision cf env.parse st.fs
      (cf.mmif_dir ++ "/" ++ stage_mmif_filename cf st.item.asset_id
        (st.mmifi + 1)) = true)
    (hval : "valid" ∈ mmif_check env.parse st.fs
      (st.item.mmif_paths.getD st.mmifi ""))
    (hs0 : status ≠ 0) :
    ∃ st2, run_stage cf env
        (StageBehavior.http (HttpOutcome.resp status body)) st = .ok st2 ∧
      st2.invocations = st.invocations ++
        [Invocation.http_post (st.mmifi + 1)] ∧
      st2.fs = (if body ≠ "" then
          fsWrite st.fs
            (if status = 500 then
              (cf.mmif_dir ++ "/" ++ stage_mmif_filename cf st.item.asset_id
                (st.mmifi + 1)) ++ "500"
            else cf.mmif_dir ++ "/" ++ stage_mmif_filename cf
              st.item.asset_id (st.mmifi + 1)) body
        else st.fs) := by
  have heq : run_stage cf env
      (StageBehavior.http (HttpOutcome.resp status body)) st =
      .ok (stage_gate env.parse (st.mmifi + 1)
        (stage_mmif_filename cf st.item.asset_id (st.mmifi + 1))
        (if status = 500 then
          (cf.mmif_dir ++ "/" ++ stage_mmif_filename cf st.item.asset_id
            (st.mmifi + 1)) ++ "500"
        else cf.mmif_dir ++ "/" ++ stage_mmif_filename cf st.item.asset_id
          (st.mmifi + 1))
        { st with
            fs := if body ≠ "" then
                fsWrite st.fs
                  (if status = 500 then
                    (cf.mmif_dir ++ "/" ++ stage_mmif_filename cf
                      st.item.asset_id (st.mmifi + 1)) ++ "500"
                  else cf.mmif_dir ++ "/" ++ stage_mmif_filename cf
                    st.item.asset_id (st.mmifi + 1)) body
              else st.fs
            invocations := st.invocations ++
              [Invocation.http_post (st.mmifi + 1)] }) := by
    unfold run_stage
    rw [if_neg (show ¬st.clams_failed = true by simp [hcf])]
    dsimp only
    simp only [hmk, Bool.not_true]
    rw [if_neg (show ¬false = true by simp)]
    simp only [Nat.add_sub_cancel]
    rw [if_neg (not_not_intro hval)]
    rw [if_pos hs0]
  refine ⟨_, heq, ?_, ?_⟩
  · exact (stage_gate_fields env.parse (st.mmifi + 1) _ _ _).2.2.1
  · exact stage_gate_fs env.parse (st.mmifi + 1) _ _ _

/-- Witness for C7's amended theorem at the concrete 503 response. -/
theorem c7_witness :
    ∃ st2, run_stage cfA env7
        (StageBehavior.http (HttpOutcome.resp 503 "NEWDOC")) st7 = .ok st2 ∧
      st2.invocations = st7.invocations ++
        [Invocation.http_post (st7.mmifi + 1)] ∧
      st2.fs = (if "NEWDOC" ≠ "" then
          fsWrite st7.fs
            (if 503 = 500 then
              (cfA.mmif_dir ++ "/" ++ stage_mmif_filename cfA
                st7.item.asset_id (st7.mmifi + 1)) ++ "500"
            else cfA.mmif_dir ++ "/" ++ stage_mmif_filename cfA
              st7.item.asset_id (st7.mmifi + 1)) "NEWDOC"
        else st7.fs) :=
  c7_http_response_amended cfA env7 st7 503 "NEWDOC" rfl (by decide)
    (by decide) (by decide)

/-! ## C1 building blocks -/

/-- A blank artifact exists on disk. -/
lemma isSome_of_blank {parse : String → MmifClass} {fs : FS} {p : String}
    (h : "blank" ∈ mmif_check parse fs p) : (fs p).isSome = true := by
  cases hf : fs p with
  | none =>
    have hc : mmif_check parse fs p = ["absent"] := by
      unfold mmif_check; rw [hf]
    rw [hc] at h
    exact absurd h (by decide)
  | some s => simp

/-- An existing, large, syntactically valid artifact is reused: the
reuse-or-regenerate decision of run_job.py lines 902-916 comes out as
"do not regenerate". -/
lemma make_new_false_of (cf : Config) (parse : String → MmifClass) (fs : FS)
    (p : String) (how : cf.overwrite_mmif = false)
    (hsome : (fs p).isSome = true)
    (hsz : ((fs p).getD "").length > 100)
    (hv : "valid" ∈ mmif_check parse fs p) :
    make_new_mmif_decision cf parse fs p = false := by
  unfold make_new_mmif_decision
  rw [hsome, how]
  rw [if_pos (by decide)]
  rw [if_pos hsz, if_pos hv]

/-- One stage iteration over an existing laden, error-free artifact: no
invocation happens, the artifact is reused, and its canonical path is
appended. -/
lemma run_stage_reuse_of (cf : Config) (env : Env) (beh : StageBehavior)
    (st : LoopState)
    (hcf : st.clams_failed = false)
    (hmk : make_new_mmif_decision cf env.parse st.fs
      (cf.mmif_dir ++ "/" ++ stage_mmif_filename cf st.item.asset_id
        (st.mmifi + 1)) = false)
    (hladen : "laden" ∈ mmif_check env.parse st.fs
      (cf.mmif_dir ++ "/" ++ stage_mmif_filename cf st.item.asset_id
        (st.mmifi + 1)))
    (herr : "error-views" ∉ mmif_check env.parse st.fs
      (cf.mmif_dir ++ "/" ++ stage_mmif_filename cf st.item.asset_id
        (st.mmifi + 1))) :
    run_stage cf env beh st = .ok
      { st with
          mmifi := st.mmifi + 1
          item := { st.item with
              mmif_files := st.item.mmif_files ++
                [stage_mmif_filename cf st.item.asset_id (st.mmifi + 1)]
              mmif_paths := st.item.mmif_paths ++
                [cf.mmif_dir ++ "/" ++ stage_mmif_filename cf
                  st.item.asset_id (st.mmifi + 1)] }
          stages_completed := st.stages_completed ++ [st.mmifi + 1] } := by
  unfold run_stage
  rw [if_neg (show ¬st.clams_failed = true by simp [hcf])]
  dsimp only
  simp only [hmk, Bool.not_false]
  rw [if_pos trivial]
  unfold stage_gate
  dsimp only
  rw [if_pos ⟨hladen, herr⟩]

/-- The whole stage loop over existing laden, error-free artifacts at all
canonical stage paths: zero invocations, no failure, the canonical paths
appended in order, and the filesystem untouched. -/
lemma run_stages_reuse (cf : Config) (env : Env) (asset : String)
    (how : cf.overwrite_mmif = false) :
    ∀ (l : List StageBehavior) (k : Nat) (st : LoopState),
      st.item.asset_id = asset →
      st.fs = env.fs →
      st.clams_failed = false →
      st.mmifi = k →
      (∀ i, i < l.length →
        ((env.fs (stage_path cf asset (k + 1 + i))).getD "").length > 100 ∧
        "laden" ∈ mmif_check env.parse env.fs
          (stage_path cf asset (k + 1 + i)) ∧
        "error-views" ∉ mmif_check env.parse env.fs
          (stage_path cf asset (k + 1 + i))) →
      ∃ st2, run_stages cf env l st = .ok st2 ∧
        st2.invocations = st.invocations ∧
        st2.clams_failed = false ∧
        st2.mmifi = k + l.length ∧
        st2.fs = env.fs ∧
        st2.item.asset_id = asset ∧
        st2.item.mmif_paths = st.item.mmif_paths ++
          (List.range' (k + 1) l.length).map (stage_path cf asset) := by
  intro l
  induction l with
  | nil =>
    intro k st h1 h2 h3 h4 _
    exact ⟨st, rfl, rfl, h3, by simpa using h4, h2, h1, by simp⟩
  | cons beh rest ih =>
    intro k st h1 h2 h3 h4 hgood
    obtain ⟨hsz, hladen, herr⟩ := hgood 0 (by simp)
    have hpath0 : stage_path cf asset (k + 1 + 0) =
        cf.mmif_dir ++ "/" ++ stage_mmif_filename cf st.item.asset_id
          (st.mmifi + 1) := by
      rw [h1, h4]
      rfl
    rw [hpath0] at hsz hladen herr
    rw [← h2] at hsz hladen herr
    have hstep := run_stage_reuse_of cf env beh st h3
      (make_new_false_of cf env.parse st.fs _ how (isSome_of_laden hladen)
        hsz (valid_mem_of_laden hladen))
      hladen herr
    have hgood' : ∀ i, i < rest.length →
        ((env.fs (stage_path cf asset (k + 1 + 1 + i))).getD "").length
          > 100 ∧
        "laden" ∈ mmif_check env.parse env.fs
          (stage_path cf asset (k + 1 + 1 + i)) ∧
        "error-views" ∉ mmif_check env.parse env.fs
          (stage_path cf asset (k + 1 + 1 + i)) := by
      intro i hi
      have h := hgood (i + 1) (by simp; omega)
      rwa [show k + 1 + (i + 1) = k + 1 + 1 + i by omega] at h
    obtain ⟨st2, hst2, e1, e2, e3, e4, e5, e6⟩ :=
      ih (k + 1)
        { st with
            mmifi := st.mmifi + 1
            item := { st.item with
                mmif_files := st.item.mmif_files ++
                  [stage_mmif_filename cf st.item.asset_id (st.mmifi + 1)]
                mmif_paths := st.item.mmif_paths ++
                  [cf.mmif_dir ++ "/" ++ stage_mmif_filename cf
                    st.item.asset_id (st.mmifi + 1)] }
            stages_completed := st.stages_completed ++ [st.mmifi + 1] }
        h1 h2 h3 (by simp [h4]) hgood'
    refine ⟨st2, ?_, e1, e2, ?_, e4, e5, ?_⟩
    · unfold run_stages
      rw [hstep]
      exact hst2
    · rw [e3]
      simp only [List.length_cons]
      omega
    · rw [e6]
      dsimp only
      rw [h1, h4]
      show _ = st.item.mmif_paths ++ List.map (stage_path cf asset)
        (List.range' (k + 1) (rest.length + 1))
      rw [show List.range' (k + 1) (rest.length + 1) =
        (k + 1) :: List.range' (k + 1 + 1) rest.length from rfl]
      simp [stage_path]

/-- Stage paths for stages `1..n` enumerated from 1 coincide with the
0-based enumeration shifted by one. -/
lemma range'_map_stage_path (cf : Config) (asset : String) (n : Nat) :
    (List.range' 1 n).map (stage_path cf asset) =
      (List.range n).map (fun j => stage_path cf asset (j + 1)) := by
  rw [List.range'_eq_map_range, List.map_map]
  apply List.map_congr_left
  intro a _
  show stage_path cf asset (1 + a) = stage_path cf asset (a + 1)
  rw [Nat.add_comm 1 a]

/-- Constructive description of the media phase when `check_avail` finds
the file and it is on disk (and the job is not media-only). -/
lemma media_phase_proceed_of (cf : Config) (env : Env) (item0 : TriedItem)
    (fn : String)
    (hmr : cf.media_required = true)
    (hjm : cf.just_get_media = false)
    (hca : env.check_avail = some fn)
    (hmf : (env.fs (cf.media_dir ++ "/" ++ fn)).isSome = true) :
    media_phase cf env item0 = .proceed
      { item0 with media_filename := fn,
                   media_path := cf.media_dir ++ "/" ++ fn } env.fs := by
  unfold media_phase
  rw [hmr]
  simp only [Bool.not_true]
  rw [if_neg (show ¬false = true by simp)]
  rw [hca]
  dsimp only
  unfold media_check
  dsimp only
  rw [if_pos hmf]
  rw [hjm]
  rw [if_neg (show ¬false = true by simp)]

/-- Constructive description of the blank phase when a blank artifact
already sits at the canonical stage-0 path and overwriting is off. -/
lemma blank_phase_reuse_of (cf : Config) (env : Env) (item : TriedItem)
    (fs : FS)
    (hmr : cf.media_required = true)
    (how : cf.overwrite_mmif = false)
    (hex : (fs (cf.mmif_dir ++ "/" ++ (item.asset_id ++ "_0.mmif"))).isSome
      = true)
    (hbl : "blank" ∈ mmif_check env.parse fs
      (cf.mmif_dir ++ "/" ++ (item.asset_id ++ "_0.mmif"))) :
    blank_phase cf env item fs = .proceed
      { item := { item with
            mmif_files := item.mmif_files ++ [item.asset_id ++ "_0.mmif"]
            mmif_paths := item.mmif_paths ++
              [cf.mmif_dir ++ "/" ++ (item.asset_id ++ "_0.mmif")] }
        fs := fs, mmifi := 0, clams_failed := false, invocations := [],
        stages_completed := [0] } := by
  unfold blank_phase
  rw [hmr]
  simp only [Bool.not_true]
  rw [if_neg (show ¬false = true by simp)]
  rw [how]
  simp only [Bool.not_false, Bool.and_true]
  rw [if_pos hex]
  unfold blank_validate
  dsimp only
  rw [if_pos hbl]

/-! ## C1 -/

/-- C1: idempotent resume — for an item whose canonical artifact files all
already exist (each app-stage artifact larger than 100 bytes and validating
"laden" without "error-views", the stage-0 artifact validating "blank"),
re-running the item with `overwrite_mmif` off (the media being available as
before) performs zero app invocations (no container run, no HTTP POST —
whatever the configured app behaviors would do), aborts nothing, and records
an artifact-path list equal to the canonical chain, i.e. the chain the
original completed run produced. -/
theorem c1_idempotent_resume (cf : Config) (env : Env) (b : BatchItem)
    (fn : String)
    (hmr : cf.media_required = true)
    (hjm : cf.just_get_media = false)
    (how : cf.overwrite_mmif = false)
    (hca : env.check_avail = some fn)
    (hmf : (env.fs (cf.media_dir ++ "/" ++ fn)).isSome = true)
    (h0 : "blank" ∈ mmif_check env.parse env.fs (stage0_path cf b.asset_id))
    (hstages : ∀ i, i < env.apps.length →
      ((env.fs (stage_path cf b.asset_id (i + 1))).getD "").length > 100 ∧
      "laden" ∈ mmif_check env.parse env.fs
        (stage_path cf b.asset_id (i + 1)) ∧
      "error-views" ∉ mmif_check env.parse env.fs
        (stage_path cf b.asset_id (i + 1))) :
    (run_item cf env b).invocations = [] ∧
    (run_item cf env b).fatal = none ∧
    ∃ t, (run_item cf env b).tried = some t ∧
      t.mmif_paths = mmif_chain cf b.asset_id env.apps.length := by
  have hmedia := media_phase_proceed_of cf env (init_item b) fn hmr hjm hca hmf
  have hblank := blank_phase_reuse_of cf env
    { init_item b with media_filename := fn,
                       media_path := cf.media_dir ++ "/" ++ fn } env.fs hmr
    how (isSome_of_blank h0) h0
  have hgood : ∀ i, i < env.apps.length →
      ((env.fs (stage_path cf b.asset_id (0 + 1 + i))).getD "").length
        > 100 ∧
      "laden" ∈ mmif_check env.parse env.fs
        (stage_path cf b.asset_id (0 + 1 + i)) ∧
      "error-views" ∉ mmif_check env.parse env.fs
        (stage_path cf b.asset_id (0 + 1 + i)) := by
    intro i hi
    have h := hstages i hi
    rwa [show i + 1 = 0 + 1 + i by omega] at h
  obtain ⟨st2, hst2, e1, e2, e3, e4, e5, e6⟩ :=
    run_stages_reuse cf env b.asset_id how env.apps 0
      { item := { { init_item b with
                      media_filename := fn,
                      media_path := cf.media_dir ++ "/" ++ fn } with
            mmif_files := { init_item b with
                              media_filename := fn,
                              media_path :=
                                cf.media_dir ++ "/" ++ fn }.mmif_files ++
              [{ init_item b with
                   media_filename := fn,
                   media_path := cf.media_dir ++ "/" ++ fn }.asset_id ++
                "_0.mmif"]
            mmif_paths := { init_item b with
                              media_filename := fn,
                              media_path :=
                                cf.media_dir ++ "/" ++ fn }.mmif_paths ++
              [cf.mmif_dir ++ "/" ++
                ({ init_item b with
                     media_filename := fn,
                     media_path := cf.media_dir ++ "/" ++ fn }.asset_id ++
                  "_0.mmif")] }
        fs := env.fs, mmifi := 0, clams_failed := false, invocations := [],
        stages_completed := [0] }
      rfl rfl rfl rfl hgood
  have hpaths : st2.item.mmif_paths =
      mmif_chain cf b.asset_id env.apps.length := by
    rw [e6]
    simp only [Nat.zero_add]
    rw [range'_map_stage_path]
    unfold mmif_chain
    simp [stage0_path, init_item]
  unfold run_item
  rw [hmedia]
  dsimp only
  rw [hblank]
  dsimp only
  rw [hst2]
  dsimp only
  rw [if_neg (show ¬st2.clams_failed = true by simp [e2])]
  cases hp : post_phase env st2 with
  | pp_skipped r =>
    refine ⟨e1, rfl, r, rfl, ?_⟩
    rw [post_phase_pp_skipped_fields env st2 r hp]
    exact hpaths
  | done r =>
    refine ⟨e1, rfl, r, rfl, ?_⟩
    rw [post_phase_done_fields env st2 r hp]
    exact hpaths

/-- Witness for C1: one configured stage, all canonical artifacts already
on disk and valid; zero invocations even though the configured stage would
be fatal if invoked. -/
theorem c1_witness :
    (run_item cfA envA bA).invocations = [] ∧
    (run_item cfA envA bA).fatal = none ∧
    ∃ t, (run_item cfA envA bA).tried = some t ∧
      t.mmif_paths = mmif_chain cfA bA.asset_id envA.apps.length :=
  c1_idempotent_resume cfA envA bA "f.mp4" rfl rfl rfl rfl (by decide)
    (by decide) (by decide)
